import Mathlib

set_option maxRecDepth 100000

/-!
Verification of the back-end code generator of the nexus compiler
(`src/nexus/code_generator.rs`).

The emitter state, the byte-append primitives (`add_code`, `add_var`,
`add_temp`, `add_data`, `add_jump`), string interning (`store_string`),
the statement/expression lowering functions (`code_gen_*`), the
backpatching pass (`backpatch_addresses`) and the driver
(`generate_code`) are embedded as pure Lean functions over an explicit
state record.  `u8` arithmetic is modelled as `Nat` arithmetic modulo
256 (the release-profile wrapping semantics); places where the Rust
debug profile would instead panic on overflow are noted in comments.

The symbol table and AST node types (`symbol_table.rs`,
`syntax_tree.rs`, `syntax_tree_node.rs`) are imported by the code
generator but are not part of the sources; they are modelled from the
specification's external-interface contract (section 6 of the spec).

Ghost instrumentation (fields that record events the Rust code only
logs or that would make it panic) is marked `ghost` in comments; no
emitter decision ever reads a ghost field.
-/

namespace Nexus

/-- Modelled from the spec: symbol types from the missing
`symbol_table.rs` (`Type` in the source; spec section 3:
`symbol_type ∈ {Int, String, Boolean}`). -/
inductive SymType where
  | int
  | string
  | boolean
deriving DecidableEq, Repr

/-- Modelled from the spec: a symbol-table entry `(name, scope_id,
symbol_type)` (spec section 3). -/
structure SymbolTableEntry where
  name : String
  scope : Nat
  symbol_type : SymType
deriving DecidableEq, Repr

/-- Modelled from the spec: the scoped symbol table of the missing
`symbol_table.rs`.  It supports `set_cur_scope(id)`, `end_cur_scope()`
and `get_symbol(name)` (spec section 6); the chain of active scopes is
kept as a stack, innermost scope first, so that `get_symbol` resolves
a name in the innermost enclosing scope that declares it. -/
structure SymbolTable where
  entries : List SymbolTableEntry
  scopeStack : List Nat
deriving DecidableEq, Repr

/-- Modelled from the spec: `set_cur_scope(id)` enters scope `id`. -/
def set_cur_scope (id : Nat) (t : SymbolTable) : SymbolTable :=
  { t with scopeStack := id :: t.scopeStack }

/-- Modelled from the spec: `end_cur_scope()` returns to the enclosing
scope. -/
def end_cur_scope (t : SymbolTable) : SymbolTable :=
  { t with scopeStack := t.scopeStack.tail }

/-- Modelled from the spec: the current scope (`cur_scope` in the
source, an `Option` there as well; `unwrap`ped at use sites). -/
def cur_scope (t : SymbolTable) : Option Nat :=
  t.scopeStack.head?

/-- Find a symbol-table entry with the given name and scope. -/
def find_entry : List SymbolTableEntry → String → Nat → Option SymbolTableEntry
  | [], _, _ => none
  | e :: rest, n, s =>
      if e.name = n ∧ e.scope = s then some e else find_entry rest n s

/-- Walk the active scope chain, innermost first. -/
def lookup_scopes : List Nat → List SymbolTableEntry → String → Option SymbolTableEntry
  | [], _, _ => none
  | s :: rest, es, n =>
      match find_entry es n s with
      | some e => some e
      | none => lookup_scopes rest es n

/-- Modelled from the spec: `get_symbol(name) → entry` (spec section
6). -/
def get_symbol (t : SymbolTable) (n : String) : Option SymbolTableEntry :=
  lookup_scopes t.scopeStack t.entries n

/-- Association-list lookup (models `HashMap::get`). -/
def alookup {α β : Type} [DecidableEq α] : List (α × β) → α → Option β
  | [], _ => none
  | (k, v) :: rest, a => if k = a then some v else alookup rest a

/-- Replace the entry for key `k` (which is present) by `(k, v)`. -/
def areplace {α β : Type} [DecidableEq α] (k : α) (v : β) :
    List (α × β) → List (α × β)
  | [] => []
  | (k', v') :: rest =>
      if k' = k then (k, v) :: rest else (k', v') :: areplace k v rest

/-- Association-list insert (models `HashMap::insert`): replacing an
existing key keeps the length unchanged, a new key is added. -/
def ainsert {α β : Type} [DecidableEq α] (m : List (α × β)) (k : α) (v : β) :
    List (α × β) :=
  if (alookup m k).isSome then
    areplace k v m
  else
    (k, v) :: m

/-- The image-cell union `CodeGenBytes` (code_generator.rs lines
12-25). -/
inductive CodeGenBytes where
  | code (b : Nat)
  | var (off : Nat)
  | temp (off : Nat)
  | empty
  | data (b : Nat)
  | jump (idx : Nat)
deriving DecidableEq, Repr

/-- The `CodeGenerator` struct (code_generator.rs lines 42-72),
with the symbol table threaded through the state (the Rust functions
take it as a second `&mut` argument) and ghost instrumentation fields:

* `errors` counts the diagnostics the source reports through
  `nexus_log` (every overflow / collision error message);
* `dataWriteHps` records the value `heap_pointer` had at each heap
  write `add_data` actually performed (the write at line 259);
* `oobJumpWrite` records that an assignment `self.jumps[i] = v` was
  attempted with `i` out of bounds (which panics in Rust);
* `backpatch_ok` records the `bool` result of `backpatch_addresses`,
  which `generate_code` discards (line 135). -/
structure GenState where
  max_scope : Option Nat
  code_arr : List CodeGenBytes
  code_pointer : Nat
  heap_pointer : Nat
  static_table : List ((String × Nat) × Nat)
  temp_index : Nat
  string_history : List (String × Nat)
  jumps : List Nat
  is_memory_full : Bool
  symtab : SymbolTable
  errors : Nat
  dataWriteHps : List Nat
  oobJumpWrite : Bool
  backpatch_ok : Bool
deriving DecidableEq, Repr

/-- The cell of the image at index `i` (`self.code_arr[i]`). -/
def cellAt (st : GenState) (i : Nat) : CodeGenBytes :=
  st.code_arr.getD i .empty

/-- `on_last_byte` (lines 183-185). -/
def on_last_byte (st : GenState) : Bool :=
  st.code_pointer == st.heap_pointer

/-- `add_code` (lines 188-207).  When memory is already full it logs a
stack-overflow error and returns `false` without writing; otherwise,
if this write lands on the last free byte it sets `is_memory_full`
for the next call, and in either case it writes at `code_pointer` and
increments it (u8 wrap-around modelled by `% 256`). -/
def add_code (code : Nat) (st : GenState) : GenState × Bool :=
  if st.is_memory_full then
    ({ st with errors := st.errors + 1 }, false)
  else
    let st1 := if on_last_byte st then { st with is_memory_full := true } else st
    ({ st1 with
        code_arr := st1.code_arr.set st1.code_pointer (.code (code % 256)),
        code_pointer := (st1.code_pointer + 1) % 256 }, true)

/-- `add_var` (lines 210-228): identical to `add_code` but writes a
`Var` placeholder. -/
def add_var (v : Nat) (st : GenState) : GenState × Bool :=
  if st.is_memory_full then
    ({ st with errors := st.errors + 1 }, false)
  else
    let st1 := if on_last_byte st then { st with is_memory_full := true } else st
    ({ st1 with
        code_arr := st1.code_arr.set st1.code_pointer (.var v),
        code_pointer := (st1.code_pointer + 1) % 256 }, true)

/-- `add_temp` (lines 231-249): identical to `add_code` but writes a
`Temp` placeholder. -/
def add_temp (t : Nat) (st : GenState) : GenState × Bool :=
  if st.is_memory_full then
    ({ st with errors := st.errors + 1 }, false)
  else
    let st1 := if on_last_byte st then { st with is_memory_full := true } else st
    ({ st1 with
        code_arr := st1.code_arr.set st1.code_pointer (.temp t),
        code_pointer := (st1.code_pointer + 1) % 256 }, true)

/-- `add_data` (lines 252-271): writes at `heap_pointer` and
decrements it.  The Rust `heap_pointer -= 1` on `u8` panics in debug
profile when `heap_pointer = 0`; the release wrap-around is modelled
by `(hp + 255) % 256`, and the ghost `dataWriteHps` records `hp` at
each performed write so that the underflow is observable. -/
def add_data (data : Nat) (st : GenState) : GenState × Bool :=
  if st.is_memory_full then
    ({ st with errors := st.errors + 1 }, false)
  else
    let st1 := if on_last_byte st then { st with is_memory_full := true } else st
    ({ st1 with
        code_arr := st1.code_arr.set st1.heap_pointer (.data (data % 256)),
        heap_pointer := (st1.heap_pointer + 255) % 256,
        dataWriteHps := st1.heap_pointer :: st1.dataWriteHps }, true)

/-- `add_jump` (lines 306-325): writes a `Jump` placeholder carrying
the current length of the jump vector and pushes a `0x00` entry. -/
def add_jump (st : GenState) : GenState × Bool :=
  if st.is_memory_full then
    ({ st with errors := st.errors + 1 }, false)
  else
    let st1 := if on_last_byte st then { st with is_memory_full := true } else st
    ({ st1 with
        code_arr := st1.code_arr.set st1.code_pointer (.jump st1.jumps.length),
        code_pointer := (st1.code_pointer + 1) % 256,
        jumps := st1.jumps ++ [0] }, true)

/-- Call `add_code` discarding the result, as the emitter does at
every plain-opcode call site. -/
def eC (b : Nat) (st : GenState) : GenState := (add_code b st).1

/-- Call `add_var` discarding the result. -/
def eV (v : Nat) (st : GenState) : GenState := (add_var v st).1

/-- Call `add_temp` discarding the result. -/
def eT (t : Nat) (st : GenState) : GenState := (add_temp t st).1

/-- Call `add_jump` discarding the result. -/
def eJ (st : GenState) : GenState := (add_jump st).1

/-- The assignment `self.jumps[i] = v` (lines 970, 1041, 1048).  Rust
`Vec` indexing panics when `i` is out of bounds; the ghost
`oobJumpWrite` flag records that event. -/
def set_jump (i v : Nat) (st : GenState) : GenState :=
  if i < st.jumps.length then
    { st with jumps := st.jumps.set i (v % 256) }
  else
    { st with oobJumpWrite := true }

/-- The character loop of `store_string` (lines 283-290): store each
character, stopping at the first failed write. -/
def store_chars : List Char → GenState → GenState × Bool
  | [], st => (st, true)
  | c :: rest, st =>
      match add_data (c.toNat % 256) st with
      | (st1, true) => store_chars rest st1
      | (st1, false) => (st1, false)

/-- `store_string` (lines 273-304).  A cached string returns its
address with no writes.  Otherwise a null terminator is written (its
result is ignored by the source), the characters are written in
reverse, and on success the address `heap_pointer + 1` is cached and
returned; if a character write failed, `None` is returned. -/
def store_string (s : String) (st : GenState) : GenState × Option Nat :=
  match alookup st.string_history s with
  | some addr => (st, some addr)
  | none =>
      let st1 := (add_data 0x00 st).1
      match store_chars s.data.reverse st1 with
      | (st2, true) =>
          let addr := (st2.heap_pointer + 1) % 256
          ({ st2 with string_history := ainsert st2.string_history s addr },
           some addr)
      | (st2, false) => (st2, none)

/-- One round of the backpatch loop (lines 333-378), processing cell
`i`; `fuel` counts the remaining iterations of `for i in 0..len`.
`self.code_pointer + *offset as u8` and `self.heap_pointer - *offset
as u8` are wrapping u8 operations (debug profile would panic), and the
read `self.jumps[*jump_index]` is modelled by `getD _ 0` (in every
state the emitter can produce, a `Jump` cell's index is in bounds). -/
def backpatch_go (fuel : Nat) (i var_pointer temp_pointer : Nat) (st : GenState) :
    GenState × Bool :=
  match fuel with
  | 0 => (st, true)
  | f + 1 =>
      match cellAt st i with
      | .var off =>
          let var_addr := (st.code_pointer + off) % 256
          if var_addr ≤ temp_pointer then
            let st' := { st with code_arr := st.code_arr.set i (.code var_addr) }
            let vp := if var_addr ≥ var_pointer then var_addr + 1 else var_pointer
            backpatch_go f (i + 1) vp temp_pointer st'
          else
            ({ st with errors := st.errors + 1 }, false)
      | .temp off =>
          let temp_addr := (st.heap_pointer + 256 - off % 256) % 256
          if temp_addr ≥ var_pointer then
            let st' := { st with code_arr := st.code_arr.set i (.code temp_addr) }
            let tp := if temp_addr ≤ temp_pointer then (temp_addr + 255) % 256
                      else temp_pointer
            backpatch_go f (i + 1) var_pointer tp st'
          else
            ({ st with errors := st.errors + 1 }, false)
      | .jump jidx =>
          let st' := { st with
            code_arr := st.code_arr.set i (.code (st.jumps.getD jidx 0)) }
          backpatch_go f (i + 1) var_pointer temp_pointer st'
      | _ => backpatch_go f (i + 1) var_pointer temp_pointer st

/-- `backpatch_addresses` (lines 328-380): cursors start at
`code_pointer` and `heap_pointer`, every cell is visited in order. -/
def backpatch_addresses (st : GenState) : GenState × Bool :=
  backpatch_go st.code_arr.length 0 st.code_pointer st.heap_pointer st

/-- The AST fragment the emitter dispatches on: expression nodes
(Terminal tokens and the nonterminals `Add`, `IsEq`, `NotEq`).
Modelled from the spec (section 3) since `syntax_tree_node.rs` is not
in the sources; `ident`/`digit`/`charLit`/`boolLit` are the Terminal
tokens `Identifier`/`Digit`/`Char`/`Keyword(true|false)`. -/
inductive Expr where
  | ident (name : String)
  | digit (v : Nat)
  | charLit (s : String)
  | boolLit (b : Bool)
  | add (l r : Expr)
  | isEq (l r : Expr)
  | notEq (l r : Expr)
deriving DecidableEq, Repr

/-- Statement-level AST nodes.  A block's statement list is
represented by `skip`/`seq` chains in source order (the source stores
children reversed and iterates them with `.rev()`, which the spec
allows an implementation to normalise).  `subBlock` is a nested
`Block` statement. -/
inductive Stmt where
  | skip
  | seq (a b : Stmt)
  | varDecl (id : String)
  | assign (id : String) (value : Expr)
  | print (e : Expr)
  | if_ (cond : Expr) (body : Stmt)
  | while_ (cond : Expr) (body : Stmt)
  | subBlock (body : Stmt)
deriving DecidableEq, Repr

/-- Scope entry at the top of `code_gen_block` (lines 146-154): the
first block gets scope 0 (the `usize::MAX` sentinel is modelled by
`none`), every later block gets `max_scope + 1`, and the symbol table
is driven into that scope. -/
def enter_scope (st : GenState) : GenState :=
  let m := match st.max_scope with
           | none => 0
           | some v => v + 1
  { st with max_scope := some m, symtab := set_cur_scope m st.symtab }

/-- Scope exit at the bottom of `code_gen_block` (line 180). -/
def exit_scope (st : GenState) : GenState :=
  { st with symtab := end_cur_scope st.symtab }

/-- The three-byte memory-reference pattern the emitter repeats for
identifier operands (e.g. lines 431-433, 685-687, 758-760, 822-824,
502-504): look the identifier up in the symbol table, look `(name,
entry.scope)` up in the static table, and emit `opcode Var(offset)
00`.  The source `unwrap`s both lookups; on analyzer-checked input
they always succeed, and the impossible `none` cases are modelled as
no-ops. -/
def emit_mem_ref (opcode : Nat) (name : String) (st : GenState) : GenState :=
  match get_symbol st.symtab name with
  | some en =>
      match alookup st.static_table (name, en.scope) with
      | some off =>
          let s := eC opcode st
          let s := eV off s
          eC 0x00 s
      | none => st
  | none => st

/-- The accumulator-spill pattern `8D Temp(temp_index) 00` with the
temp counter incremented after the `Temp` placeholder (lines 694-698,
807-811, 869-872, 598-601). -/
def temp_spill (st : GenState) : GenState :=
  let s := eC 0x8D st
  let s := eT s.temp_index s
  let s := { s with temp_index := s.temp_index + 1 }
  eC 0x00 s

/-- `code_gen_var_decl` (lines 383-413): record the next static-table
offset for `(id, current scope)`; `Int`/`Boolean` emit
`A9 00 8D Var(offset) 00`, `String` emits nothing.  The source
`unwrap`s `cur_scope` and `get_symbol`; on analyzer-checked input both
are always present, and the impossible `none` cases are modelled as
no-ops. -/
def code_gen_var_decl (id : String) (st : GenState) : GenState :=
  let static_offset := st.static_table.length
  let st := { st with
    static_table :=
      ainsert st.static_table (id, (cur_scope st.symtab).getD 0) static_offset }
  match get_symbol st.symtab id with
  | some entry =>
      match entry.symbol_type with
      | .int | .boolean =>
          let st := eC 0xA9 st
          let st := eC 0x00 st
          let st := eC 0x8D st
          let st := eV static_offset st
          eC 0x00 st
      | .string => st
  | none => st

/-- The right-child processing of `code_gen_add` (lines 671-703): a
nonterminal right child recurses (its already-computed result is the
`recRes` argument; the source line 701 calls `code_gen_add` with
`first = false` for every nonterminal); a terminal right child loads
the accumulator (digit or identifier, anything else only logs) and is
spilled to a fresh temp. -/
def add_right_go (recRes : GenState) (r : Expr) (st : GenState) : GenState :=
  match r with
  | .add _ _ | .isEq _ _ | .notEq _ _ => recRes
  | rt =>
      let s :=
        match rt with
        | .digit n =>
            let s := eC 0xA9 st
            eC n s
        | .ident vname => emit_mem_ref 0xAD vname st
        | _ => st
      temp_spill s

/-- The left-child processing of `code_gen_add` (lines 705-735): the
left child must be a digit (anything else only logs); it is loaded,
`6D Temp 00` adds the spilled right value, and the sum is either
stored back to the temp (`first = false`) or the temp is released
(`first = true`). -/
def add_left_go (l : Expr) (first : Bool) (st1 : GenState) : GenState :=
  match l with
  | .digit n =>
      let s := eC 0xA9 st1
      let s := eC n s
      let s := eC 0x6D s
      let s := eT (s.temp_index - 1) s
      let s := eC 0x00 s
      if first then
        { s with temp_index := s.temp_index - 1 }
      else
        let s := eC 0x8D s
        let s := eT (s.temp_index - 1) s
        eC 0x00 s
  | _ => st1

/-- `code_gen_add` (lines 663-736), called on an `Add` node (the
source reads `children[0]` as the right child and `children[1]` as
the left child of whatever binary nonterminal it was handed). -/
def code_gen_add (e : Expr) (first : Bool) (st : GenState) : GenState :=
  match e with
  | .add l r | .isEq l r | .notEq l r =>
      let st1 := add_right_go (code_gen_add r false st) r st
      add_left_go l first st1
  | _ => st

/-- `get_z_flag_value` (lines 909-919): `A9 00 D0 02 A9 01`. -/
def get_z_flag_value (st : GenState) : GenState :=
  let st := eC 0xA9 st
  let st := eC 0x00 st
  let st := eC 0xD0 st
  let st := eC 0x02 st
  let st := eC 0xA9 st
  eC 0x01 st

/-- The Z-flip sequence emitted for not-equals comparisons (lines
891-905): `A2 00 D0 02 A2 01 EC FF 00`. -/
def z_flip_seq (st : GenState) : GenState :=
  let s := eC 0xA2 st
  let s := eC 0x00 s
  let s := eC 0xD0 s
  let s := eC 0x02 s
  let s := eC 0xA2 s
  let s := eC 0x01 s
  let s := eC 0xEC s
  let s := eC 0xFF s
  eC 0x00 s

/-- The left-child processing of `code_gen_compare` (lines 749-805):
evaluate the left operand into the accumulator.  The results of the
recursive nonterminal evaluations are passed pre-computed in
`recAdd`/`recEq`/`recNe` (only the branch the child's constructor
selects is used). -/
def cmp_left_go (recAdd recEq recNe : GenState) (l : Expr) (st : GenState) :
    GenState :=
  match l with
  | .ident vname => emit_mem_ref 0xAD vname st
  | .digit n =>
      let s := eC 0xA9 st
      eC n s
  | .charLit cs =>
      match store_string cs st with
      | (s1, some a) =>
          let s := eC 0xA9 s1
          eC a s
      | (s1, none) => s1
  | .boolLit b =>
      let s := eC 0xA9 st
      eC (if b then 0x01 else 0x00) s
  | .add _ _ => recAdd
  | .isEq _ _ => recEq
  | .notEq _ _ => recNe

/-- The right-child processing of `code_gen_compare` (lines 813-880):
evaluate the right operand into X; a nonterminal result is moved from
the accumulator to X through a fresh temp (`8D Temp 00 AE Temp 00`). -/
def cmp_right_go (recAdd recEq recNe : GenState) (r : Expr) (st1 : GenState) :
    GenState :=
  match r with
  | .ident vname => emit_mem_ref 0xAE vname st1
  | .digit n =>
      let s := eC 0xA2 st1
      eC n s
  | .charLit cs =>
      match store_string cs st1 with
      | (s1, some a) =>
          let s := eC 0xA2 s1
          eC a s
      | (s1, none) => s1
  | .boolLit b =>
      let s := eC 0xA2 st1
      eC (if b then 0x01 else 0x00) s
  | .add _ _ | .isEq _ _ | .notEq _ _ =>
      let s :=
        match r with
        | .add _ _ => recAdd
        | .isEq _ _ => recEq
        | _ => recNe
      let s := temp_spill s
      let s := eC 0xAE s
      let s := eT (s.temp_index - 1) s
      let s := eC 0x00 s
      { s with temp_index := s.temp_index - 1 }

/-- The closing `EC Temp 00` of a comparison (lines 882-887), with
the temp released afterwards. -/
def cmp_finish (st2 : GenState) : GenState :=
  let s := eC 0xEC st2
  let s := eT (s.temp_index - 1) s
  let s := eC 0x00 s
  { s with temp_index := s.temp_index - 1 }

/-- `code_gen_compare` (lines 741-906), called on a comparison node
with the caller-chosen `is_eq` flag: evaluate the left child into the
accumulator, spill it to a temp, evaluate the right child into X,
compare, and for not-equals append the Z-flip sequence. -/
def code_gen_compare (e : Expr) (is_eq : Bool) (st : GenState) : GenState :=
  match e with
  | .add l r | .isEq l r | .notEq l r =>
      let st1 := cmp_left_go (code_gen_add l true st)
        (get_z_flag_value (code_gen_compare l true st))
        (get_z_flag_value (code_gen_compare l false st)) l st
      let st1 := temp_spill st1
      let st2 := cmp_right_go (code_gen_add r true st1)
        (get_z_flag_value (code_gen_compare r true st1))
        (get_z_flag_value (code_gen_compare r false st1)) r st1
      let st3 := cmp_finish st2
      if is_eq then st3 else z_flip_seq st3
  | _ => st

/-- The condition dispatch shared by `code_gen_if` and
`code_gen_while` (lines 936-942 and 993-999): comparisons run
`code_gen_compare` with the matching flag, any other nonterminal only
logs an error. -/
def cond_compare (cond : Expr) (st : GenState) : GenState :=
  match cond with
  | .isEq _ _ => code_gen_compare cond true st
  | .notEq _ _ => code_gen_compare cond false st
  | _ => st

/-- `code_gen_assignment` (lines 416-508): evaluate the right-hand
side into the accumulator, then store it through the identifier's
variable placeholder (`8D Var 00`). -/
def code_gen_assignment (id : String) (value : Expr) (st : GenState) : GenState :=
  let st1 :=
    match value with
    | .ident vname => emit_mem_ref 0xAD vname st
    | .digit v =>
        let s := eC 0xA9 st
        eC v s
    | .charLit cs =>
        match store_string cs st with
        | (s1, some a) =>
            let s := eC 0xA9 s1
            eC a s
        | (s1, none) => s1
    | .boolLit true =>
        let s := eC 0xA9 st
        eC 0x01 s
    | .boolLit false =>
        let s := eC 0xA9 st
        eC 0x00 s
    | .add _ _ => code_gen_add value true st
    | .isEq _ _ => get_z_flag_value (code_gen_compare value true st)
    | .notEq _ _ => get_z_flag_value (code_gen_compare value false st)
  emit_mem_ref 0x8D id st1

/-- The temp-reload of `code_gen_print`'s nonterminal arms (lines
603-611): `AC Temp 00 A2 01` with the temp released between the
placeholder and the trailing `00`. -/
def print_temp_reload (st : GenState) : GenState :=
  let s := eC 0xAC st
  let s := eT (s.temp_index - 1) s
  let s := { s with temp_index := s.temp_index - 1 }
  let s := eC 0x00 s
  let s := eC 0xA2 s
  eC 0x01 s

/-- `code_gen_print` (lines 511-659): set up Y and X for the system
call, then emit `FF`.  Nonterminal children are evaluated into the
accumulator and moved to Y through a freshly allocated (and
immediately released) temp. -/
def code_gen_print (e : Expr) (st : GenState) : GenState :=
  let st1 :=
    match e with
    | .ident name =>
        match get_symbol st.symtab name with
        | some en =>
            match alookup st.static_table (name, en.scope) with
            | some off =>
                match en.symbol_type with
                | .int | .boolean =>
                    let s := eC 0xAC st
                    let s := eV off s
                    let s := eC 0x00 s
                    let s := eC 0xA2 s
                    eC 0x01 s
                | .string =>
                    let s := eC 0xAC st
                    let s := eV off s
                    let s := eC 0x00 s
                    let s := eC 0xA2 s
                    eC 0x02 s
            | none => st
        | none => st
    | .digit d =>
        let s := eC 0xA0 st
        let s := eC d s
        let s := eC 0xA2 s
        eC 0x01 s
    | .charLit cs =>
        let s :=
          match store_string cs st with
          | (s1, some a) =>
              let s := eC 0xA0 s1
              eC a s
          | (s1, none) => s1
        let s := eC 0xA2 s
        eC 0x02 s
    | .boolLit b =>
        let s := eC 0xA0 st
        let s := eC (if b then 0x01 else 0x00) s
        let s := eC 0xA2 s
        eC 0x01 s
    | .add _ _ => print_temp_reload (temp_spill (code_gen_add e true st))
    | .isEq _ _ =>
        print_temp_reload (temp_spill
          (get_z_flag_value (code_gen_compare e true st)))
    | .notEq _ _ =>
        print_temp_reload (temp_spill
          (get_z_flag_value (code_gen_compare e false st)))
  eC 0xFF st1

/-- The always-taken back-branch tail of `code_gen_while` (lines
1023-1048): `A2 01 EC FF 00 D0 Jump`, then the conditional exit
offset is stored (when there was a condition) followed by the
two's-complement unconditional offset (`!(cp - loop_start) + 1`
on u8 is `(256 - x) % 256` of the wrapped difference). -/
def while_tail (loop_start_addr body_jump_index body_start_addr : Nat)
    (st4 : GenState) : GenState :=
  let unconditional_jump_index := st4.jumps.length
  let s := eC 0xA2 st4
  let s := eC 0x01 s
  let s := eC 0xEC s
  let s := eC 0xFF s
  let s := eC 0x00 s
  let s := eC 0xD0 s
  let s := eJ s
  let s :=
    if body_start_addr ≠ 0 then
      set_jump body_jump_index ((s.code_pointer + 256 - body_start_addr) % 256) s
    else s
  set_jump unconditional_jump_index
    ((256 - ((s.code_pointer + 256 - loop_start_addr) % 256)) % 256) s

/-- The statement dispatch of `code_gen_block` (lines 144-181)
together with `code_gen_if` (lines 921-972) and `code_gen_while`
(lines 974-1049).  A nested block enters the next scope in pre-order,
emits its children in source order and ends the scope.  `if`/`while`
on the literal `false` emit nothing (dead-code elision); on the
literal `true` the body is emitted unguarded (`while` keeps its
back-branch tail); otherwise the condition is compared, `D0` plus a
jump placeholder is emitted, and the branch offset
`code_pointer - start_addr` is stored after the body. -/
def code_gen_stmt : Stmt → GenState → GenState
  | .skip, st => st
  | .seq a b, st => code_gen_stmt b (code_gen_stmt a st)
  | .varDecl id, st => code_gen_var_decl id st
  | .assign id v, st => code_gen_assignment id v st
  | .print e, st => code_gen_print e st
  | .subBlock body, st => exit_scope (code_gen_stmt body (enter_scope st))
  | .if_ cond body, st =>
      let jump_index := st.jumps.length
      match cond with
      | .boolLit false => st
      | .boolLit true => exit_scope (code_gen_stmt body (enter_scope st))
      | .isEq _ _ | .notEq _ _ | .add _ _ =>
          let st1 := cond_compare cond st
          let st2 := eC 0xD0 st1
          let st3 := eJ st2
          let start_addr := st3.code_pointer
          let st4 := exit_scope (code_gen_stmt body (enter_scope st3))
          if start_addr ≠ 0 then
            set_jump jump_index ((st4.code_pointer + 256 - start_addr) % 256) st4
          else st4
      | _ => exit_scope (code_gen_stmt body (enter_scope st))
  | .while_ cond body, st =>
      let loop_start_addr := st.code_pointer
      let body_jump_index := st.jumps.length
      match cond with
      | .boolLit false => st
      | .boolLit true =>
          let st4 := exit_scope (code_gen_stmt body (enter_scope st))
          while_tail loop_start_addr body_jump_index 0 st4
      | .isEq _ _ | .notEq _ _ | .add _ _ =>
          let st1 := cond_compare cond st
          let st2 := eC 0xD0 st1
          let st3 := eJ st2
          let body_start_addr := st3.code_pointer
          let st4 := exit_scope (code_gen_stmt body (enter_scope st3))
          while_tail loop_start_addr body_jump_index body_start_addr st4
      | _ =>
          let st4 := exit_scope (code_gen_stmt body (enter_scope st))
          while_tail loop_start_addr body_jump_index 0 st4

/-- `code_gen_block` applied to a whole block whose statement list is
`b`: enter the next scope, emit the children, end the scope. -/
def code_gen_block (b : Stmt) (st : GenState) : GenState :=
  exit_scope (code_gen_stmt b (enter_scope st))

/-- Two uppercase hex digits, as the `Debug` rendering `{:02X}`. -/
def hexDigit (n : Nat) : Char :=
  if n < 10 then Char.ofNat (48 + n) else Char.ofNat (55 + n)

/-- Render a byte as two uppercase hex digits. -/
def byteToHex (n : Nat) : String :=
  String.mk [hexDigit (n / 16 % 16), hexDigit (n % 16)]

/-- The `Debug` rendering of one image cell (lines 28-39): `Empty`
renders as `00`, placeholders render with their tag letter. -/
def renderCell : CodeGenBytes → String
  | .code b => byteToHex b
  | .var v => "V" ++ toString v
  | .temp t => "T" ++ toString t
  | .empty => "00"
  | .data b => byteToHex b
  | .jump j => "J" ++ toString j

/-- `display_code` (lines 1051-1127) reduced to its data content: the
cell-by-cell rendering of the image that is inserted into the DOM. -/
def display_code (st : GenState) : List String :=
  st.code_arr.map renderCell

/-- The freshly reset emitter state `generate_code` starts from
(lines 113-127 reset every field of `CodeGenerator::new`'s layout:
`max_scope`, the 256 image cells, both pointers, the static table,
the temp index, the string cache, the jump vector and the overflow
flag; the ghost instrumentation restarts with the compile). -/
def fresh_state (symbol_table : SymbolTable) : GenState := {
  max_scope := none,
  code_arr := List.replicate 256 .empty,
  code_pointer := 0x00,
  heap_pointer := 0xFE,
  static_table := [],
  temp_index := 0,
  string_history := [],
  jumps := [],
  is_memory_full := false,
  symtab := symbol_table,
  errors := 0,
  dataWriteHps := [],
  oobJumpWrite := false,
  backpatch_ok := true }

/-- `generate_code` (lines 109-142).  Every emitter field is reset
to `fresh_state`, the root block is emitted, `HALT` is appended,
`backpatch_addresses` runs (its result is discarded by the source and
recorded here in the ghost `backpatch_ok`), and `display_code` is
always called — its rendering is the second component. -/
def generate_code (prog : Stmt) (symbol_table : SymbolTable) (_prev : GenState) :
    GenState × Option (List String) :=
  let st := fresh_state symbol_table
  let st := code_gen_block prog st
  let st := eC 0x00 st
  let res := backpatch_addresses st
  let st := { res.1 with backpatch_ok := res.2 }
  (st, some (display_code st))

/-- A fresh generator, as built by `CodeGenerator::new` (lines
75-107) with an empty symbol table attached. -/
def initGenState : GenState :=
  fresh_state { entries := [], scopeStack := [] }

/-- The address a `D0` branch lands on: the operand sits at index
`operand`, the next instruction at `operand + 1`, and the offset is
added to the program counter modulo 256. -/
def branchTarget (operand offset : Nat) : Nat :=
  (operand + 1 + offset) % 256

end Nexus

namespace Nexus

/-! ### List helpers -/

theorem getD_set_ne {α : Type} (l : List α) {i j : Nat} (a d : α) (h : i ≠ j) :
    (l.set i a).getD j d = l.getD j d := by
  simp [List.getD_eq_getElem?_getD, List.getElem?_set_ne h]

theorem getD_set_self {α : Type} (l : List α) {i : Nat} (a d : α)
    (h : i < l.length) : (l.set i a).getD i d = a := by
  simp [List.getD_eq_getElem?_getD, List.getElem?_set_self h]

theorem getD_append_left {α : Type} (l m : List α) {i : Nat} (d : α)
    (h : i < l.length) : (l ++ m).getD i d = l.getD i d := by
  simp [List.getD_eq_getElem?_getD, List.getElem?_append, h]

theorem getD_append_len {α : Type} (l : List α) (x d : α) :
    (l ++ [x]).getD l.length d = x := by
  simp [List.getD_eq_getElem?_getD]

theorem getD_replicate_self {α : Type} (n i : Nat) (a : α) :
    (List.replicate n a).getD i a = a := by
  rcases Nat.lt_or_ge i n with h | h
  · simp [List.getD_eq_getElem?_getD, h]
  · simp [List.getD_eq_getElem?_getD, List.getElem?_eq_none, h]

/-! ### The emission invariant and the step relation -/

/-- Invariant of every stable emitter state reachable without
overflow: 256 cells, the code region `[0, code_pointer)` below the
heap region `(heap_pointer, 0xFE]`, and every cell between the two
pointers (inclusive) plus cell `0xFF` still `Empty`. -/
def EmitInv (st : GenState) : Prop :=
  st.code_arr.length = 256 ∧
  st.code_pointer ≤ st.heap_pointer ∧
  st.heap_pointer ≤ 254 ∧
  (∀ i, i < 256 → st.code_pointer ≤ i → i ≤ st.heap_pointer →
    cellAt st i = .empty) ∧
  cellAt st 255 = .empty

instance (st : GenState) : Decidable (EmitInv st) := by
  unfold EmitInv; infer_instance

/-- What one emitter step (or any composition of steps) guarantees:
fullness is monotone, the image size never changes, the jump vector
never shrinks; and as long as the overflow flag never tripped, the
invariant is preserved, the code pointer only grows, the heap pointer
only shrinks, already-written code cells are never touched again and
already-present jump entries keep their values. -/
structure StepOK (st st' : GenState) : Prop where
  full_mono : st'.is_memory_full = false → st.is_memory_full = false
  len_eq : st'.code_arr.length = st.code_arr.length
  jlen_mono : st.jumps.length ≤ st'.jumps.length
  good : st'.is_memory_full = false → EmitInv st →
    EmitInv st' ∧ st.code_pointer ≤ st'.code_pointer ∧
    st'.heap_pointer ≤ st.heap_pointer ∧
    (∀ i, i < st.code_pointer → cellAt st' i = cellAt st i) ∧
    (∀ j, j < st.jumps.length → st'.jumps.getD j 0 = st.jumps.getD j 0)

theorem StepOK.srefl (st : GenState) : StepOK st st :=
  ⟨fun h => h, rfl, Nat.le_refl _,
   fun _ hInv => ⟨hInv, Nat.le_refl _, Nat.le_refl _,
     fun _ _ => rfl, fun _ _ => rfl⟩⟩

theorem StepOK.strans {a b c : GenState} (h1 : StepOK a b) (h2 : StepOK b c) :
    StepOK a c := by
  refine ⟨fun h => h1.full_mono (h2.full_mono h),
          h2.len_eq.trans h1.len_eq,
          Nat.le_trans h1.jlen_mono h2.jlen_mono, ?_⟩
  intro hc hInv
  have hb := h2.full_mono hc
  obtain ⟨ib, cp1, hp1, cells1, j1⟩ := h1.good hb hInv
  obtain ⟨ic, cp2, hp2, cells2, j2⟩ := h2.good hc ib
  exact ⟨ic, Nat.le_trans cp1 cp2, Nat.le_trans hp2 hp1,
    fun i hi => (cells2 i (Nat.lt_of_lt_of_le hi cp1)).trans (cells1 i hi),
    fun j hj => (j2 j (Nat.lt_of_lt_of_le hj h1.jlen_mono)).trans (j1 j hj)⟩

end Nexus

namespace Nexus

/-! ### Characterizations of the byte-append primitives -/

/-- `add_code` on an open (not full, not last-byte) state. -/
theorem eC_eq_of_open (b : Nat) (st : GenState)
    (hf : st.is_memory_full = false) (hl : on_last_byte st = false) :
    eC b st = { st with
      code_arr := st.code_arr.set st.code_pointer (.code (b % 256)),
      code_pointer := (st.code_pointer + 1) % 256 } := by
  simp [eC, add_code, hf, hl]

/-- `add_var` on an open state. -/
theorem eV_eq_of_open (v : Nat) (st : GenState)
    (hf : st.is_memory_full = false) (hl : on_last_byte st = false) :
    eV v st = { st with
      code_arr := st.code_arr.set st.code_pointer (.var v),
      code_pointer := (st.code_pointer + 1) % 256 } := by
  simp [eV, add_var, hf, hl]

/-- `add_temp` on an open state. -/
theorem eT_eq_of_open (t : Nat) (st : GenState)
    (hf : st.is_memory_full = false) (hl : on_last_byte st = false) :
    eT t st = { st with
      code_arr := st.code_arr.set st.code_pointer (.temp t),
      code_pointer := (st.code_pointer + 1) % 256 } := by
  simp [eT, add_temp, hf, hl]

/-- `add_jump` on an open state. -/
theorem eJ_eq_of_open (st : GenState)
    (hf : st.is_memory_full = false) (hl : on_last_byte st = false) :
    eJ st = { st with
      code_arr := st.code_arr.set st.code_pointer (.jump st.jumps.length),
      code_pointer := (st.code_pointer + 1) % 256,
      jumps := st.jumps ++ [0] } := by
  simp [eJ, add_jump, hf, hl]

/-- `add_data` on an open state. -/
theorem eD_eq_of_open (b : Nat) (st : GenState)
    (hf : st.is_memory_full = false) (hl : on_last_byte st = false) :
    (add_data b st).1 = { st with
      code_arr := st.code_arr.set st.heap_pointer (.data (b % 256)),
      heap_pointer := (st.heap_pointer + 255) % 256,
      dataWriteHps := st.heap_pointer :: st.dataWriteHps } := by
  simp [add_data, hf, hl]

/-! ### StepOK for the primitives -/

theorem stepOK_eC (b : Nat) (st : GenState) : StepOK st (eC b st) := by
  by_cases hf : st.is_memory_full = true
  · refine ⟨?_, ?_, ?_, ?_⟩ <;> simp [eC, add_code, hf]
  · simp only [Bool.not_eq_true] at hf
    by_cases hl : on_last_byte st = true
    · refine ⟨?_, ?_, ?_, ?_⟩ <;> simp [eC, add_code, hf, hl]
    · simp only [Bool.not_eq_true] at hl
      have hne : st.code_pointer ≠ st.heap_pointer := by
        simpa [on_last_byte] using hl
      rw [eC_eq_of_open b st hf hl]
      refine ⟨fun _ => hf, by simp, by simp, ?_⟩
      intro _ hInv
      obtain ⟨hlen, hcphp, hhp, hreg, h255⟩ := hInv
      have hcp : st.code_pointer < st.heap_pointer := Nat.lt_of_le_of_ne hcphp hne
      have hmod : (st.code_pointer + 1) % 256 = st.code_pointer + 1 :=
        Nat.mod_eq_of_lt (by omega)
      refine ⟨⟨by simpa using hlen, by simp [hmod]; omega, by simpa using hhp,
        ?_, ?_⟩, by simp [hmod], by simp, ?_, by simp⟩
      · intro i hi1 hi2 hi3
        simp only [cellAt] at *
        simp only [hmod] at hi2
        have hne2 : st.code_pointer ≠ i := by omega
        rw [getD_set_ne _ _ _ hne2]
        exact hreg i hi1 (by omega) (by simpa using hi3)
      · show cellAt _ 255 = _
        simp only [cellAt] at *
        have hne2 : st.code_pointer ≠ 255 := by omega
        rw [getD_set_ne _ _ _ hne2]
        exact h255
      · intro i hi
        show cellAt _ i = cellAt st i
        simp only [cellAt]
        have hne2 : st.code_pointer ≠ i := by omega
        rw [getD_set_ne _ _ _ hne2]

theorem stepOK_eV (v : Nat) (st : GenState) : StepOK st (eV v st) := by
  by_cases hf : st.is_memory_full = true
  · refine ⟨?_, ?_, ?_, ?_⟩ <;> simp [eV, add_var, hf]
  · simp only [Bool.not_eq_true] at hf
    by_cases hl : on_last_byte st = true
    · refine ⟨?_, ?_, ?_, ?_⟩ <;> simp [eV, add_var, hf, hl]
    · simp only [Bool.not_eq_true] at hl
      have hne : st.code_pointer ≠ st.heap_pointer := by
        simpa [on_last_byte] using hl
      rw [eV_eq_of_open v st hf hl]
      refine ⟨fun _ => hf, by simp, by simp, ?_⟩
      intro _ hInv
      obtain ⟨hlen, hcphp, hhp, hreg, h255⟩ := hInv
      have hcp : st.code_pointer < st.heap_pointer := Nat.lt_of_le_of_ne hcphp hne
      have hmod : (st.code_pointer + 1) % 256 = st.code_pointer + 1 :=
        Nat.mod_eq_of_lt (by omega)
      refine ⟨⟨by simpa using hlen, by simp [hmod]; omega, by simpa using hhp,
        ?_, ?_⟩, by simp [hmod], by simp, ?_, by simp⟩
      · intro i hi1 hi2 hi3
        simp only [cellAt] at *
        simp only [hmod] at hi2
        have hne2 : st.code_pointer ≠ i := by omega
        rw [getD_set_ne _ _ _ hne2]
        exact hreg i hi1 (by omega) (by simpa using hi3)
      · show cellAt _ 255 = _
        simp only [cellAt] at *
        have hne2 : st.code_pointer ≠ 255 := by omega
        rw [getD_set_ne _ _ _ hne2]
        exact h255
      · intro i hi
        show cellAt _ i = cellAt st i
        simp only [cellAt]
        have hne2 : st.code_pointer ≠ i := by omega
        rw [getD_set_ne _ _ _ hne2]

theorem stepOK_eT (t : Nat) (st : GenState) : StepOK st (eT t st) := by
  by_cases hf : st.is_memory_full = true
  · refine ⟨?_, ?_, ?_, ?_⟩ <;> simp [eT, add_temp, hf]
  · simp only [Bool.not_eq_true] at hf
    by_cases hl : on_last_byte st = true
    · refine ⟨?_, ?_, ?_, ?_⟩ <;> simp [eT, add_temp, hf, hl]
    · simp only [Bool.not_eq_true] at hl
      have hne : st.code_pointer ≠ st.heap_pointer := by
        simpa [on_last_byte] using hl
      rw [eT_eq_of_open t st hf hl]
      refine ⟨fun _ => hf, by simp, by simp, ?_⟩
      intro _ hInv
      obtain ⟨hlen, hcphp, hhp, hreg, h255⟩ := hInv
      have hcp : st.code_pointer < st.heap_pointer := Nat.lt_of_le_of_ne hcphp hne
      have hmod : (st.code_pointer + 1) % 256 = st.code_pointer + 1 :=
        Nat.mod_eq_of_lt (by omega)
      refine ⟨⟨by simpa using hlen, by simp [hmod]; omega, by simpa using hhp,
        ?_, ?_⟩, by simp [hmod], by simp, ?_, by simp⟩
      · intro i hi1 hi2 hi3
        simp only [cellAt] at *
        simp only [hmod] at hi2
        have hne2 : st.code_pointer ≠ i := by omega
        rw [getD_set_ne _ _ _ hne2]
        exact hreg i hi1 (by omega) (by simpa using hi3)
      · show cellAt _ 255 = _
        simp only [cellAt] at *
        have hne2 : st.code_pointer ≠ 255 := by omega
        rw [getD_set_ne _ _ _ hne2]
        exact h255
      · intro i hi
        show cellAt _ i = cellAt st i
        simp only [cellAt]
        have hne2 : st.code_pointer ≠ i := by omega
        rw [getD_set_ne _ _ _ hne2]

theorem stepOK_eJ (st : GenState) : StepOK st (eJ st) := by
  by_cases hf : st.is_memory_full = true
  · refine ⟨?_, ?_, ?_, ?_⟩ <;> simp [eJ, add_jump, hf]
  · simp only [Bool.not_eq_true] at hf
    by_cases hl : on_last_byte st = true
    · refine ⟨?_, ?_, ?_, ?_⟩ <;> simp [eJ, add_jump, hf, hl]
    · simp only [Bool.not_eq_true] at hl
      have hne : st.code_pointer ≠ st.heap_pointer := by
        simpa [on_last_byte] using hl
      rw [eJ_eq_of_open st hf hl]
      refine ⟨fun _ => hf, by simp, by simp, ?_⟩
      intro _ hInv
      obtain ⟨hlen, hcphp, hhp, hreg, h255⟩ := hInv
      have hcp : st.code_pointer < st.heap_pointer := Nat.lt_of_le_of_ne hcphp hne
      have hmod : (st.code_pointer + 1) % 256 = st.code_pointer + 1 :=
        Nat.mod_eq_of_lt (by omega)
      refine ⟨⟨by simpa using hlen, by simp [hmod]; omega, by simpa using hhp,
        ?_, ?_⟩, by simp [hmod], by simp, ?_, ?_⟩
      · intro i hi1 hi2 hi3
        simp only [cellAt] at *
        simp only [hmod] at hi2
        have hne2 : st.code_pointer ≠ i := by omega
        rw [getD_set_ne _ _ _ hne2]
        exact hreg i hi1 (by omega) (by simpa using hi3)
      · show cellAt _ 255 = _
        simp only [cellAt] at *
        have hne2 : st.code_pointer ≠ 255 := by omega
        rw [getD_set_ne _ _ _ hne2]
        exact h255
      · intro i hi
        show cellAt _ i = cellAt st i
        simp only [cellAt]
        have hne2 : st.code_pointer ≠ i := by omega
        rw [getD_set_ne _ _ _ hne2]
      · intro j hj
        show (st.jumps ++ [0]).getD j 0 = st.jumps.getD j 0
        exact getD_append_left _ _ _ hj

theorem stepOK_eD (b : Nat) (st : GenState) : StepOK st (add_data b st).1 := by
  by_cases hf : st.is_memory_full = true
  · refine ⟨?_, ?_, ?_, ?_⟩ <;> simp [add_data, hf]
  · simp only [Bool.not_eq_true] at hf
    by_cases hl : on_last_byte st = true
    · refine ⟨?_, ?_, ?_, ?_⟩ <;> simp [add_data, hf, hl]
    · simp only [Bool.not_eq_true] at hl
      have hne : st.code_pointer ≠ st.heap_pointer := by
        simpa [on_last_byte] using hl
      rw [eD_eq_of_open b st hf hl]
      refine ⟨fun _ => hf, by simp, by simp, ?_⟩
      intro _ hInv
      obtain ⟨hlen, hcphp, hhp, hreg, h255⟩ := hInv
      have hcp : st.code_pointer < st.heap_pointer := Nat.lt_of_le_of_ne hcphp hne
      have hmod : (st.heap_pointer + 255) % 256 = st.heap_pointer - 1 := by omega
      refine ⟨⟨by simpa using hlen, by simp [hmod]; omega, by simp [hmod]; omega,
        ?_, ?_⟩, by simp, by simp [hmod], ?_, by simp⟩
      · intro i hi1 hi2 hi3
        simp only [cellAt] at *
        simp only [hmod] at hi3
        have hne2 : st.heap_pointer ≠ i := by omega
        rw [getD_set_ne _ _ _ hne2]
        exact hreg i hi1 (by simpa using hi2) (by omega)
      · show cellAt _ 255 = _
        simp only [cellAt] at *
        have hne2 : st.heap_pointer ≠ 255 := by omega
        rw [getD_set_ne _ _ _ hne2]
        exact h255
      · intro i hi
        show cellAt _ i = cellAt st i
        simp only [cellAt]
        have hne2 : st.heap_pointer ≠ i := by omega
        rw [getD_set_ne _ _ _ hne2]

end Nexus

namespace Nexus

/-- Any state change that leaves the image, both pointers, the jump
vector and the overflow flag untouched is a harmless step. -/
theorem StepOK.of_fields_eq {st st' : GenState}
    (harr : st'.code_arr = st.code_arr)
    (hcp : st'.code_pointer = st.code_pointer)
    (hhp : st'.heap_pointer = st.heap_pointer)
    (hj : st'.jumps = st.jumps)
    (hfull : st'.is_memory_full = st.is_memory_full) : StepOK st st' := by
  have hcell : ∀ i, cellAt st' i = cellAt st i := by
    intro i; simp [cellAt, harr]
  refine ⟨by simp [hfull], by simp [harr], by simp [hj], ?_⟩
  intro _ hInv
  obtain ⟨h1, h2, h3, h4, h5⟩ := hInv
  refine ⟨⟨by simp [harr, h1], by rw [hcp, hhp]; exact h2, by rw [hhp]; exact h3,
    ?_, by rw [hcell]; exact h5⟩, by simp [hcp], by simp [hhp], ?_, ?_⟩
  · intro i hi1 hi2 hi3
    rw [hcell]
    exact h4 i hi1 (by rw [hcp] at hi2; exact hi2) (by rw [hhp] at hi3; exact hi3)
  · intro i _
    rw [hcell]
  · intro j _
    rw [hj]

theorem stepOK_enter_scope (st : GenState) : StepOK st (enter_scope st) :=
  StepOK.of_fields_eq rfl rfl rfl rfl rfl

theorem stepOK_exit_scope (st : GenState) : StepOK st (exit_scope st) :=
  StepOK.of_fields_eq rfl rfl rfl rfl rfl

/-- Writing a jump entry at an index at or above `st`'s jump-vector
length (as both `code_gen_if` and `code_gen_while` do: the written
indices are allocated at or after the entry state `st`) is a harmless
step relative to `st`. -/
theorem stepOK_set_jump_of_le {st st4 : GenState} (h : StepOK st st4)
    (i v : Nat) (hi : st.jumps.length ≤ i) : StepOK st (set_jump i v st4) := by
  have harr : (set_jump i v st4).code_arr = st4.code_arr := by
    unfold set_jump; split <;> rfl
  have hcp : (set_jump i v st4).code_pointer = st4.code_pointer := by
    unfold set_jump; split <;> rfl
  have hhp : (set_jump i v st4).heap_pointer = st4.heap_pointer := by
    unfold set_jump; split <;> rfl
  have hfull : (set_jump i v st4).is_memory_full = st4.is_memory_full := by
    unfold set_jump; split <;> rfl
  have hjlen : (set_jump i v st4).jumps.length = st4.jumps.length := by
    unfold set_jump; split <;> simp
  have hjpre : ∀ j, j < st.jumps.length →
      (set_jump i v st4).jumps.getD j 0 = st4.jumps.getD j 0 := by
    intro j hj
    unfold set_jump; split
    · exact getD_set_ne _ _ _ (by omega)
    · rfl
  have hcell : ∀ k, cellAt (set_jump i v st4) k = cellAt st4 k := by
    intro k; simp [cellAt, harr]
  refine ⟨fun hf => h.full_mono (by rw [hfull] at hf; exact hf),
    by rw [harr]; exact h.len_eq, by rw [hjlen]; exact h.jlen_mono, ?_⟩
  intro hf hInv
  have hf4 : st4.is_memory_full = false := by rw [hfull] at hf; exact hf
  obtain ⟨hinv4, hcpm, hhpm, hcells, hjold⟩ := h.good hf4 hInv
  obtain ⟨g1, g2, g3, g4, g5⟩ := hinv4
  refine ⟨⟨by rw [harr]; exact g1, by rw [hcp, hhp]; exact g2, by rw [hhp]; exact g3,
    ?_, by rw [hcell]; exact g5⟩, by rw [hcp]; exact hcpm, by rw [hhp]; exact hhpm,
    ?_, ?_⟩
  · intro k hk1 hk2 hk3
    rw [hcell]
    exact g4 k hk1 (by rw [hcp] at hk2; exact hk2) (by rw [hhp] at hk3; exact hk3)
  · intro k hk
    rw [hcell]
    exact hcells k hk
  · intro j hj
    rw [hjpre j hj]
    exact hjold j hj

end Nexus

namespace Nexus

/-! ### StepOK plus jumps preservation for the expression-level emitters -/

/-- A step that additionally leaves the jump vector untouched — true
of every emitter function except `add_jump`, `set_jump` and the
`if`/`while` lowering. -/
def StepJ (st st' : GenState) : Prop :=
  StepOK st st' ∧ st'.jumps = st.jumps

theorem StepJ.refl (st : GenState) : StepJ st st :=
  ⟨StepOK.srefl st, rfl⟩

theorem StepJ.trans {a b c : GenState} (h1 : StepJ a b) (h2 : StepJ b c) :
    StepJ a c :=
  ⟨h1.1.strans h2.1, h2.2.trans h1.2⟩

theorem jumps_eC (b : Nat) (st : GenState) : (eC b st).jumps = st.jumps := by
  by_cases hf : st.is_memory_full = true
  · simp [eC, add_code, hf]
  · simp only [Bool.not_eq_true] at hf
    by_cases hl : on_last_byte st = true <;> simp [eC, add_code, hf, hl]

theorem jumps_eV (v : Nat) (st : GenState) : (eV v st).jumps = st.jumps := by
  by_cases hf : st.is_memory_full = true
  · simp [eV, add_var, hf]
  · simp only [Bool.not_eq_true] at hf
    by_cases hl : on_last_byte st = true <;> simp [eV, add_var, hf, hl]

theorem jumps_eT (t : Nat) (st : GenState) : (eT t st).jumps = st.jumps := by
  by_cases hf : st.is_memory_full = true
  · simp [eT, add_temp, hf]
  · simp only [Bool.not_eq_true] at hf
    by_cases hl : on_last_byte st = true <;> simp [eT, add_temp, hf, hl]

theorem jumps_eD (b : Nat) (st : GenState) :
    (add_data b st).1.jumps = st.jumps := by
  by_cases hf : st.is_memory_full = true
  · simp [add_data, hf]
  · simp only [Bool.not_eq_true] at hf
    by_cases hl : on_last_byte st = true <;> simp [add_data, hf, hl]

theorem stepJ_eC (b : Nat) (st : GenState) : StepJ st (eC b st) :=
  ⟨stepOK_eC b st, jumps_eC b st⟩

theorem stepJ_eV (v : Nat) (st : GenState) : StepJ st (eV v st) :=
  ⟨stepOK_eV v st, jumps_eV v st⟩

theorem stepJ_eT (t : Nat) (st : GenState) : StepJ st (eT t st) :=
  ⟨stepOK_eT t st, jumps_eT t st⟩

theorem stepJ_eD (b : Nat) (st : GenState) : StepJ st (add_data b st).1 :=
  ⟨stepOK_eD b st, jumps_eD b st⟩

theorem stepJ_of_fields_eq {st st' : GenState}
    (harr : st'.code_arr = st.code_arr)
    (hcp : st'.code_pointer = st.code_pointer)
    (hhp : st'.heap_pointer = st.heap_pointer)
    (hj : st'.jumps = st.jumps)
    (hfull : st'.is_memory_full = st.is_memory_full) : StepJ st st' :=
  ⟨StepOK.of_fields_eq harr hcp hhp hj hfull, hj⟩

theorem stepJ_store_chars (cs : List Char) (st : GenState) :
    StepJ st (store_chars cs st).1 := by
  induction cs generalizing st with
  | nil => exact StepJ.refl st
  | cons c rest ih =>
      have hd : StepJ st (add_data (c.toNat % 256) st).1 := stepJ_eD _ st
      unfold store_chars
      rcases h : add_data (c.toNat % 256) st with ⟨st1, ok⟩
      rw [h] at hd
      cases ok
      · exact hd
      · exact hd.trans (ih st1)

theorem stepJ_store_string (s : String) (st : GenState) :
    StepJ st (store_string s st).1 := by
  rcases halk : alookup st.string_history s with _ | addr <;>
    simp only [store_string, halk]
  · have hd : StepJ st (add_data 0x00 st).1 := stepJ_eD 0x00 st
    have hc : StepJ st (store_chars s.data.reverse (add_data 0x00 st).1).1 :=
      hd.trans (stepJ_store_chars _ _)
    rcases hsc : store_chars s.data.reverse (add_data 0x00 st).1 with ⟨st2, stored⟩
    rw [hsc] at hc
    cases stored
    · exact hc
    · exact hc.trans (stepJ_of_fields_eq rfl rfl rfl rfl rfl)
  · exact StepJ.refl st

theorem stepJ_emit_mem_ref (b : Nat) (n : String) (st : GenState) :
    StepJ st (emit_mem_ref b n st) := by
  rcases hg : get_symbol st.symtab n with _ | en <;> simp only [emit_mem_ref, hg]
  · exact StepJ.refl st
  · rcases ha : alookup st.static_table (n, en.scope) with _ | off <;>
      simp only [ha]
    · exact StepJ.refl st
    · exact (stepJ_eC b st).trans ((stepJ_eV off _).trans (stepJ_eC 0x00 _))

theorem stepJ_temp_spill (st : GenState) : StepJ st (temp_spill st) := by
  simp only [temp_spill]
  have h1 : StepJ st (eT (eC 0x8D st).temp_index (eC 0x8D st)) :=
    (stepJ_eC 0x8D st).trans (stepJ_eT _ _)
  have h2 : StepJ (eT (eC 0x8D st).temp_index (eC 0x8D st))
      { eT (eC 0x8D st).temp_index (eC 0x8D st) with
        temp_index := (eT (eC 0x8D st).temp_index (eC 0x8D st)).temp_index + 1 } :=
    stepJ_of_fields_eq rfl rfl rfl rfl rfl
  exact (h1.trans h2).trans (stepJ_eC 0x00 _)

theorem stepJ_get_z_flag_value (st : GenState) : StepJ st (get_z_flag_value st) := by
  simp only [get_z_flag_value]
  exact (stepJ_eC 0xA9 st).trans ((stepJ_eC 0x00 _).trans ((stepJ_eC 0xD0 _).trans
    ((stepJ_eC 0x02 _).trans ((stepJ_eC 0xA9 _).trans (stepJ_eC 0x01 _)))))

theorem stepJ_z_flip_seq (st : GenState) : StepJ st (z_flip_seq st) := by
  simp only [z_flip_seq]
  exact (stepJ_eC 0xA2 st).trans ((stepJ_eC 0x00 _).trans ((stepJ_eC 0xD0 _).trans
    ((stepJ_eC 0x02 _).trans ((stepJ_eC 0xA2 _).trans ((stepJ_eC 0x01 _).trans
    ((stepJ_eC 0xEC _).trans ((stepJ_eC 0xFF _).trans (stepJ_eC 0x00 _))))))))

theorem stepJ_add_right_go {st recRes : GenState} (r : Expr)
    (hrec : StepJ st recRes) : StepJ st (add_right_go recRes r st) := by
  cases r <;> simp only [add_right_go]
  case ident v => exact (stepJ_emit_mem_ref 0xAD v st).trans (stepJ_temp_spill _)
  case digit n =>
      exact ((stepJ_eC 0xA9 st).trans (stepJ_eC n _)).trans (stepJ_temp_spill _)
  case charLit _ => exact stepJ_temp_spill st
  case boolLit _ => exact stepJ_temp_spill st
  case add _ _ => exact hrec
  case isEq _ _ => exact hrec
  case notEq _ _ => exact hrec

theorem stepJ_add_left_go (l : Expr) (first : Bool) (st1 : GenState) :
    StepJ st1 (add_left_go l first st1) := by
  cases l <;> simp only [add_left_go]
  case digit n =>
      have h5 : StepJ st1 (eC 0x00 (eT ((eC 0x6D (eC n (eC 0xA9 st1))).temp_index - 1)
          (eC 0x6D (eC n (eC 0xA9 st1))))) :=
        (stepJ_eC 0xA9 st1).trans ((stepJ_eC n _).trans ((stepJ_eC 0x6D _).trans
          ((stepJ_eT _ _).trans (stepJ_eC 0x00 _))))
      split
      · exact h5.trans (stepJ_of_fields_eq rfl rfl rfl rfl rfl)
      · exact h5.trans ((stepJ_eC 0x8D _).trans ((stepJ_eT _ _).trans (stepJ_eC 0x00 _)))
  case ident _ => exact StepJ.refl st1
  case charLit _ => exact StepJ.refl st1
  case boolLit _ => exact StepJ.refl st1
  case add _ _ => exact StepJ.refl st1
  case isEq _ _ => exact StepJ.refl st1
  case notEq _ _ => exact StepJ.refl st1

theorem stepJ_code_gen_add (e : Expr) (first : Bool) (st : GenState) :
    StepJ st (code_gen_add e first st) := by
  induction e generalizing first st with
  | ident _ => exact StepJ.refl st
  | digit _ => exact StepJ.refl st
  | charLit _ => exact StepJ.refl st
  | boolLit _ => exact StepJ.refl st
  | add l r ihl ihr =>
      exact (stepJ_add_right_go r (ihr false st)).trans (stepJ_add_left_go l first _)
  | isEq l r ihl ihr =>
      exact (stepJ_add_right_go r (ihr false st)).trans (stepJ_add_left_go l first _)
  | notEq l r ihl ihr =>
      exact (stepJ_add_right_go r (ihr false st)).trans (stepJ_add_left_go l first _)

theorem stepJ_cmp_left_go {st recAdd recEq recNe : GenState} (l : Expr)
    (hA : StepJ st recAdd) (hE : StepJ st recEq) (hN : StepJ st recNe) :
    StepJ st (cmp_left_go recAdd recEq recNe l st) := by
  cases l <;> simp only [cmp_left_go]
  case ident v => exact stepJ_emit_mem_ref 0xAD v st
  case digit n => exact (stepJ_eC 0xA9 st).trans (stepJ_eC n _)
  case charLit cs =>
      have hs : StepJ st (store_string cs st).1 := stepJ_store_string cs st
      rcases hss : store_string cs st with ⟨s1, _ | a⟩ <;> rw [hss] at hs
      · exact hs
      · exact hs.trans ((stepJ_eC 0xA9 s1).trans (stepJ_eC a _))
  case boolLit b => exact (stepJ_eC 0xA9 st).trans (stepJ_eC _ _)
  case add _ _ => exact hA
  case isEq _ _ => exact hE
  case notEq _ _ => exact hN

theorem stepJ_cmp_right_go {st1 recAdd recEq recNe : GenState} (r : Expr)
    (hA : StepJ st1 recAdd) (hE : StepJ st1 recEq) (hN : StepJ st1 recNe) :
    StepJ st1 (cmp_right_go recAdd recEq recNe r st1) := by
  cases r <;> simp only [cmp_right_go]
  case ident v => exact stepJ_emit_mem_ref 0xAE v st1
  case digit n => exact (stepJ_eC 0xA2 st1).trans (stepJ_eC n _)
  case charLit cs =>
      have hs : StepJ st1 (store_string cs st1).1 := stepJ_store_string cs st1
      rcases hss : store_string cs st1 with ⟨s1, _ | a⟩ <;> rw [hss] at hs
      · exact hs
      · exact hs.trans ((stepJ_eC 0xA2 s1).trans (stepJ_eC a _))
  case boolLit b => exact (stepJ_eC 0xA2 st1).trans (stepJ_eC _ _)
  case add _ _ =>
      exact (hA.trans ((stepJ_temp_spill _).trans ((stepJ_eC 0xAE _).trans
        ((stepJ_eT _ _).trans (stepJ_eC 0x00 _))))).trans
        (stepJ_of_fields_eq rfl rfl rfl rfl rfl)
  case isEq _ _ =>
      exact (hE.trans ((stepJ_temp_spill _).trans ((stepJ_eC 0xAE _).trans
        ((stepJ_eT _ _).trans (stepJ_eC 0x00 _))))).trans
        (stepJ_of_fields_eq rfl rfl rfl rfl rfl)
  case notEq _ _ =>
      exact (hN.trans ((stepJ_temp_spill _).trans ((stepJ_eC 0xAE _).trans
        ((stepJ_eT _ _).trans (stepJ_eC 0x00 _))))).trans
        (stepJ_of_fields_eq rfl rfl rfl rfl rfl)

theorem stepJ_cmp_finish (st2 : GenState) : StepJ st2 (cmp_finish st2) := by
  simp only [cmp_finish]
  exact ((stepJ_eC 0xEC st2).trans ((stepJ_eT _ _).trans (stepJ_eC 0x00 _))).trans
    (stepJ_of_fields_eq rfl rfl rfl rfl rfl)

theorem stepJ_code_gen_compare (e : Expr) (is_eq : Bool) (st : GenState) :
    StepJ st (code_gen_compare e is_eq st) := by
  induction e generalizing is_eq st with
  | ident _ => exact StepJ.refl st
  | digit _ => exact StepJ.refl st
  | charLit _ => exact StepJ.refl st
  | boolLit _ => exact StepJ.refl st
  | add l r ihl ihr =>
      simp only [code_gen_compare]
      have h1 := (stepJ_cmp_left_go l (stepJ_code_gen_add l true st)
        ((ihl true st).trans (stepJ_get_z_flag_value _))
        ((ihl false st).trans (stepJ_get_z_flag_value _))).trans
        (stepJ_temp_spill _)
      have h2 := h1.trans (stepJ_cmp_right_go r (stepJ_code_gen_add r true _)
        ((ihr true _).trans (stepJ_get_z_flag_value _))
        ((ihr false _).trans (stepJ_get_z_flag_value _)))
      have h3 := h2.trans (stepJ_cmp_finish _)
      cases is_eq
      · exact h3.trans (stepJ_z_flip_seq _)
      · exact h3
  | isEq l r ihl ihr =>
      simp only [code_gen_compare]
      have h1 := (stepJ_cmp_left_go l (stepJ_code_gen_add l true st)
        ((ihl true st).trans (stepJ_get_z_flag_value _))
        ((ihl false st).trans (stepJ_get_z_flag_value _))).trans
        (stepJ_temp_spill _)
      have h2 := h1.trans (stepJ_cmp_right_go r (stepJ_code_gen_add r true _)
        ((ihr true _).trans (stepJ_get_z_flag_value _))
        ((ihr false _).trans (stepJ_get_z_flag_value _)))
      have h3 := h2.trans (stepJ_cmp_finish _)
      cases is_eq
      · exact h3.trans (stepJ_z_flip_seq _)
      · exact h3
  | notEq l r ihl ihr =>
      simp only [code_gen_compare]
      have h1 := (stepJ_cmp_left_go l (stepJ_code_gen_add l true st)
        ((ihl true st).trans (stepJ_get_z_flag_value _))
        ((ihl false st).trans (stepJ_get_z_flag_value _))).trans
        (stepJ_temp_spill _)
      have h2 := h1.trans (stepJ_cmp_right_go r (stepJ_code_gen_add r true _)
        ((ihr true _).trans (stepJ_get_z_flag_value _))
        ((ihr false _).trans (stepJ_get_z_flag_value _)))
      have h3 := h2.trans (stepJ_cmp_finish _)
      cases is_eq
      · exact h3.trans (stepJ_z_flip_seq _)
      · exact h3

theorem stepJ_cond_compare (cond : Expr) (st : GenState) :
    StepJ st (cond_compare cond st) := by
  cases cond <;> simp only [cond_compare]
  case isEq _ _ => exact stepJ_code_gen_compare _ true st
  case notEq _ _ => exact stepJ_code_gen_compare _ false st
  case ident _ => exact StepJ.refl st
  case digit _ => exact StepJ.refl st
  case charLit _ => exact StepJ.refl st
  case boolLit _ => exact StepJ.refl st
  case add _ _ => exact StepJ.refl st

end Nexus

namespace Nexus

/-! ### StepOK for the statement-level emitters -/

theorem stepJ_code_gen_var_decl (id : String) (st : GenState) :
    StepJ st (code_gen_var_decl id st) := by
  simp only [code_gen_var_decl]
  have h0 : StepJ st { st with
      static_table := ainsert st.static_table
        (id, (cur_scope st.symtab).getD 0) st.static_table.length } :=
    stepJ_of_fields_eq rfl rfl rfl rfl rfl
  rcases hg : get_symbol st.symtab id with _ | en
  · exact h0
  · rcases hty : en.symbol_type with _ | _ | _ <;> simp only [hty]
    · exact h0.trans ((stepJ_eC 0xA9 _).trans ((stepJ_eC 0x00 _).trans
        ((stepJ_eC 0x8D _).trans ((stepJ_eV _ _).trans (stepJ_eC 0x00 _)))))
    · exact h0
    · exact h0.trans ((stepJ_eC 0xA9 _).trans ((stepJ_eC 0x00 _).trans
        ((stepJ_eC 0x8D _).trans ((stepJ_eV _ _).trans (stepJ_eC 0x00 _)))))

theorem stepJ_store_string_pair {st s1 : GenState} {cs : String}
    {r : Option Nat} (heq : store_string cs st = (s1, r)) : StepJ st s1 := by
  have hs := stepJ_store_string cs st
  rw [heq] at hs
  exact hs

theorem stepJ_code_gen_assignment (id : String) (value : Expr) (st : GenState) :
    StepJ st (code_gen_assignment id value st) := by
  simp only [code_gen_assignment]
  have hval : ∀ s1 : GenState, StepJ st s1 → StepJ st (emit_mem_ref 0x8D id s1) :=
    fun s1 h => h.trans (stepJ_emit_mem_ref 0x8D id s1)
  split
  · exact hval _ (stepJ_emit_mem_ref 0xAD _ st)
  · exact hval _ ((stepJ_eC 0xA9 st).trans (stepJ_eC _ _))
  · split
    next s1 a heq =>
      exact hval _ ((stepJ_store_string_pair heq).trans
        ((stepJ_eC 0xA9 s1).trans (stepJ_eC a _)))
    next s1 heq =>
      exact hval _ (stepJ_store_string_pair heq)
  · exact hval _ ((stepJ_eC 0xA9 st).trans (stepJ_eC _ _))
  · exact hval _ ((stepJ_eC 0xA9 st).trans (stepJ_eC _ _))
  · exact hval _ (stepJ_code_gen_add _ true st)
  · exact hval _ ((stepJ_code_gen_compare _ true st).trans
      (stepJ_get_z_flag_value _))
  · exact hval _ ((stepJ_code_gen_compare _ false st).trans
      (stepJ_get_z_flag_value _))

theorem stepJ_print_temp_reload (st : GenState) : StepJ st (print_temp_reload st) := by
  simp only [print_temp_reload]
  have h1 : StepJ st (eT ((eC 0xAC st).temp_index - 1) (eC 0xAC st)) :=
    (stepJ_eC 0xAC st).trans (stepJ_eT _ _)
  have h2 : StepJ (eT ((eC 0xAC st).temp_index - 1) (eC 0xAC st))
      { eT ((eC 0xAC st).temp_index - 1) (eC 0xAC st) with
        temp_index := (eT ((eC 0xAC st).temp_index - 1) (eC 0xAC st)).temp_index - 1 } :=
    stepJ_of_fields_eq rfl rfl rfl rfl rfl
  exact ((h1.trans h2).trans (stepJ_eC 0x00 _)).trans
    ((stepJ_eC 0xA2 _).trans (stepJ_eC 0x01 _))

theorem stepJ_code_gen_print (e : Expr) (st : GenState) :
    StepJ st (code_gen_print e st) := by
  simp only [code_gen_print]
  have hff : ∀ s1 : GenState, StepJ st s1 → StepJ st (eC 0xFF s1) :=
    fun s1 h => h.trans (stepJ_eC 0xFF s1)
  split
  · -- identifier operand
    split
    next en heq =>
      split
      next off heq2 =>
        split
        · exact hff _ ((stepJ_eC 0xAC st).trans ((stepJ_eV off _).trans
            ((stepJ_eC 0x00 _).trans ((stepJ_eC 0xA2 _).trans (stepJ_eC _ _)))))
        · exact hff _ ((stepJ_eC 0xAC st).trans ((stepJ_eV off _).trans
            ((stepJ_eC 0x00 _).trans ((stepJ_eC 0xA2 _).trans (stepJ_eC _ _)))))
        · exact hff _ ((stepJ_eC 0xAC st).trans ((stepJ_eV off _).trans
            ((stepJ_eC 0x00 _).trans ((stepJ_eC 0xA2 _).trans (stepJ_eC _ _)))))
      next heq2 => exact hff _ (StepJ.refl st)
    next heq => exact hff _ (StepJ.refl st)
  · exact hff _ ((stepJ_eC 0xA0 st).trans ((stepJ_eC _ _).trans
      ((stepJ_eC 0xA2 _).trans (stepJ_eC 0x01 _))))
  · -- string literal operand
    have htail : ∀ s1 : GenState, StepJ st s1 →
        StepJ st (eC 0x02 (eC 0xA2 s1)) :=
      fun s1 h => h.trans ((stepJ_eC 0xA2 s1).trans (stepJ_eC 0x02 _))
    split
    next s1 a heq =>
      exact hff _ (htail _ ((stepJ_store_string_pair heq).trans
        ((stepJ_eC 0xA0 s1).trans (stepJ_eC a _))))
    next s1 heq =>
      exact hff _ (htail _ (stepJ_store_string_pair heq))
  · exact hff _ ((stepJ_eC 0xA0 st).trans ((stepJ_eC _ _).trans
      ((stepJ_eC 0xA2 _).trans (stepJ_eC 0x01 _))))
  · exact hff _ ((stepJ_code_gen_add _ true st).trans
      ((stepJ_temp_spill _).trans (stepJ_print_temp_reload _)))
  · exact hff _ (((stepJ_code_gen_compare _ true st).trans
      (stepJ_get_z_flag_value _)).trans
      ((stepJ_temp_spill _).trans (stepJ_print_temp_reload _)))
  · exact hff _ (((stepJ_code_gen_compare _ false st).trans
      (stepJ_get_z_flag_value _)).trans
      ((stepJ_temp_spill _).trans (stepJ_print_temp_reload _)))

theorem stepOK_while_tail {st st4 : GenState} (h : StepOK st st4)
    (ls bji bsa : Nat) (hbji : st.jumps.length ≤ bji) :
    StepOK st (while_tail ls bji bsa st4) := by
  simp only [while_tail]
  have h11 : StepOK st (eJ (eC 0xD0 (eC 0x00 (eC 0xFF (eC 0xEC (eC 0x01
      (eC 0xA2 st4))))))) :=
    ((((((h.strans (stepOK_eC 0xA2 st4)).strans (stepOK_eC 0x01 _)).strans
      (stepOK_eC 0xEC _)).strans (stepOK_eC 0xFF _)).strans
      (stepOK_eC 0x00 _)).strans (stepOK_eC 0xD0 _)).strans (stepOK_eJ _)
  split
  · exact stepOK_set_jump_of_le
      (stepOK_set_jump_of_le h11 bji _ hbji) st4.jumps.length _ h.jlen_mono
  · exact stepOK_set_jump_of_le h11 st4.jumps.length _ h.jlen_mono

theorem stepOK_code_gen_stmt (s : Stmt) (st : GenState) :
    StepOK st (code_gen_stmt s st) := by
  induction s generalizing st with
  | skip => exact StepOK.srefl st
  | seq a b iha ihb =>
      exact (iha st).strans (ihb _)
  | varDecl id => exact (stepJ_code_gen_var_decl id st).1
  | assign id v => exact (stepJ_code_gen_assignment id v st).1
  | print e => exact (stepJ_code_gen_print e st).1
  | subBlock body ih =>
      exact ((stepOK_enter_scope st).strans (ih _)).strans (stepOK_exit_scope _)
  | if_ cond body ih =>
      cases cond with
      | boolLit b =>
          cases b
          · exact StepOK.srefl st
          · simp only [code_gen_stmt]
            exact ((stepOK_enter_scope st).strans (ih _)).strans (stepOK_exit_scope _)
      | isEq l r =>
          simp only [code_gen_stmt]
          have h4 : StepOK st (exit_scope (code_gen_stmt body (enter_scope
              (eJ (eC 0xD0 (cond_compare (.isEq l r) st)))))) :=
            ((((stepJ_cond_compare _ st).1.strans (stepOK_eC 0xD0 _)).strans
              (stepOK_eJ _)).strans ((stepOK_enter_scope _).strans (ih _))).strans
              (stepOK_exit_scope _)
          split
          · exact stepOK_set_jump_of_le h4 st.jumps.length _ (Nat.le_refl _)
          · exact h4
      | notEq l r =>
          simp only [code_gen_stmt]
          have h4 : StepOK st (exit_scope (code_gen_stmt body (enter_scope
              (eJ (eC 0xD0 (cond_compare (.notEq l r) st)))))) :=
            ((((stepJ_cond_compare _ st).1.strans (stepOK_eC 0xD0 _)).strans
              (stepOK_eJ _)).strans ((stepOK_enter_scope _).strans (ih _))).strans
              (stepOK_exit_scope _)
          split
          · exact stepOK_set_jump_of_le h4 st.jumps.length _ (Nat.le_refl _)
          · exact h4
      | add l r =>
          simp only [code_gen_stmt]
          have h4 : StepOK st (exit_scope (code_gen_stmt body (enter_scope
              (eJ (eC 0xD0 (cond_compare (.add l r) st)))))) :=
            ((((stepJ_cond_compare _ st).1.strans (stepOK_eC 0xD0 _)).strans
              (stepOK_eJ _)).strans ((stepOK_enter_scope _).strans (ih _))).strans
              (stepOK_exit_scope _)
          split
          · exact stepOK_set_jump_of_le h4 st.jumps.length _ (Nat.le_refl _)
          · exact h4
      | ident v =>
          simp only [code_gen_stmt]
          exact ((stepOK_enter_scope st).strans (ih _)).strans (stepOK_exit_scope _)
      | digit n =>
          simp only [code_gen_stmt]
          exact ((stepOK_enter_scope st).strans (ih _)).strans (stepOK_exit_scope _)
      | charLit cs =>
          simp only [code_gen_stmt]
          exact ((stepOK_enter_scope st).strans (ih _)).strans (stepOK_exit_scope _)
  | while_ cond body ih =>
      cases cond with
      | boolLit b =>
          cases b
          · exact StepOK.srefl st
          · simp only [code_gen_stmt]
            exact stepOK_while_tail
              (((stepOK_enter_scope st).strans (ih _)).strans (stepOK_exit_scope _))
              st.code_pointer st.jumps.length 0 (Nat.le_refl _)
      | isEq l r =>
          simp only [code_gen_stmt]
          exact stepOK_while_tail
            (((((stepJ_cond_compare _ st).1.strans (stepOK_eC 0xD0 _)).strans
              (stepOK_eJ _)).strans ((stepOK_enter_scope _).strans (ih _))).strans
              (stepOK_exit_scope _))
            st.code_pointer st.jumps.length _ (Nat.le_refl _)
      | notEq l r =>
          simp only [code_gen_stmt]
          exact stepOK_while_tail
            (((((stepJ_cond_compare _ st).1.strans (stepOK_eC 0xD0 _)).strans
              (stepOK_eJ _)).strans ((stepOK_enter_scope _).strans (ih _))).strans
              (stepOK_exit_scope _))
            st.code_pointer st.jumps.length _ (Nat.le_refl _)
      | add l r =>
          simp only [code_gen_stmt]
          exact stepOK_while_tail
            (((((stepJ_cond_compare _ st).1.strans (stepOK_eC 0xD0 _)).strans
              (stepOK_eJ _)).strans ((stepOK_enter_scope _).strans (ih _))).strans
              (stepOK_exit_scope _))
            st.code_pointer st.jumps.length _ (Nat.le_refl _)
      | ident v =>
          simp only [code_gen_stmt]
          exact stepOK_while_tail
            (((stepOK_enter_scope st).strans (ih _)).strans (stepOK_exit_scope _))
            st.code_pointer st.jumps.length 0 (Nat.le_refl _)
      | digit n =>
          simp only [code_gen_stmt]
          exact stepOK_while_tail
            (((stepOK_enter_scope st).strans (ih _)).strans (stepOK_exit_scope _))
            st.code_pointer st.jumps.length 0 (Nat.le_refl _)
      | charLit cs =>
          simp only [code_gen_stmt]
          exact stepOK_while_tail
            (((stepOK_enter_scope st).strans (ih _)).strans (stepOK_exit_scope _))
            st.code_pointer st.jumps.length 0 (Nat.le_refl _)

theorem stepOK_code_gen_block (b : Stmt) (st : GenState) :
    StepOK st (code_gen_block b st) :=
  ((stepOK_enter_scope st).strans (stepOK_code_gen_stmt b _)).strans
    (stepOK_exit_scope _)

end Nexus

namespace Nexus

/-! ### Backpatching facts -/

/-- The backpatch loop never moves the pointers, never changes the
jump vector or the overflow flag, and leaves every `Empty` cell
`Empty` (it only ever rewrites `Var`, `Temp` and `Jump` cells). -/
theorem backpatch_go_preserves (fuel : Nat) : ∀ i vp tp st,
    (backpatch_go fuel i vp tp st).1.code_pointer = st.code_pointer ∧
    (backpatch_go fuel i vp tp st).1.heap_pointer = st.heap_pointer ∧
    (backpatch_go fuel i vp tp st).1.is_memory_full = st.is_memory_full ∧
    (backpatch_go fuel i vp tp st).1.jumps = st.jumps ∧
    (∀ k, cellAt st k = .empty → cellAt (backpatch_go fuel i vp tp st).1 k = .empty) := by
  induction fuel with
  | zero => intro i vp tp st; simp [backpatch_go]
  | succ f ih =>
      intro i vp tp st
      rcases hcell : cellAt st i with b | off | off | _ | b | jidx <;>
        simp only [backpatch_go, hcell]
      · exact ih _ _ _ _
      · split
        · have hpres : ∀ k, cellAt st k = .empty →
              cellAt { st with code_arr :=
                st.code_arr.set i (.code ((st.code_pointer + off) % 256)) } k = .empty := by
            intro k hk
            have hne : i ≠ k := by
              intro he; rw [he] at hcell; rw [hcell] at hk; cases hk
            simpa [cellAt] using (getD_set_ne st.code_arr _ _ hne).trans hk
          obtain ⟨h1, h2, h3, h4, h5⟩ := ih (i + 1) _ tp
            { st with code_arr := st.code_arr.set i (.code ((st.code_pointer + off) % 256)) }
          exact ⟨h1, h2, h3, h4, fun k hk => h5 k (hpres k hk)⟩
        · exact ⟨rfl, rfl, rfl, rfl, fun k hk => hk⟩
      · split
        · have hpres : ∀ k, cellAt st k = .empty →
              cellAt { st with code_arr :=
                st.code_arr.set i (.code ((st.heap_pointer + 256 - off % 256) % 256)) } k
                = .empty := by
            intro k hk
            have hne : i ≠ k := by
              intro he; rw [he] at hcell; rw [hcell] at hk; cases hk
            simpa [cellAt] using (getD_set_ne st.code_arr _ _ hne).trans hk
          obtain ⟨h1, h2, h3, h4, h5⟩ := ih (i + 1) vp _
            { st with code_arr :=
              st.code_arr.set i (.code ((st.heap_pointer + 256 - off % 256) % 256)) }
          exact ⟨h1, h2, h3, h4, fun k hk => h5 k (hpres k hk)⟩
        · exact ⟨rfl, rfl, rfl, rfl, fun k hk => hk⟩
      · exact ih _ _ _ _
      · exact ih _ _ _ _
      · have hpres : ∀ k, cellAt st k = .empty →
            cellAt { st with code_arr :=
              st.code_arr.set i (.code (st.jumps.getD jidx 0)) } k = .empty := by
          intro k hk
          have hne : i ≠ k := by
            intro he; rw [he] at hcell; rw [hcell] at hk; cases hk
          simpa [cellAt] using (getD_set_ne st.code_arr _ _ hne).trans hk
        obtain ⟨h1, h2, h3, h4, h5⟩ := ih (i + 1) vp tp
          { st with code_arr := st.code_arr.set i (.code (st.jumps.getD jidx 0)) }
        exact ⟨h1, h2, h3, h4, fun k hk => h5 k (hpres k hk)⟩

/-! ### Precise characterizations under no-overflow -/

/-- When `add_code` did not trip the overflow flag and the invariant
holds, its effect is exactly one cell write and a plain increment. -/
theorem eC_precise (b : Nat) (st : GenState) (hInv : EmitInv st)
    (hf : (eC b st).is_memory_full = false) :
    eC b st = { st with
      code_arr := st.code_arr.set st.code_pointer (.code (b % 256)),
      code_pointer := st.code_pointer + 1 } := by
  have hf0 : st.is_memory_full = false := (stepOK_eC b st).full_mono hf
  by_cases hl : on_last_byte st = true
  · rw [eC, add_code] at hf
    simp [hf0, hl] at hf
  · simp only [Bool.not_eq_true] at hl
    have hmod : (st.code_pointer + 1) % 256 = st.code_pointer + 1 := by
      have h1 := hInv.2.1
      have h2 := hInv.2.2.1
      omega
    rw [eC_eq_of_open b st hf0 hl, hmod]

/-- When `add_jump` did not trip the overflow flag and the invariant
holds, its effect is exactly one `Jump` cell, a plain increment, and
one `0x00` pushed onto the jump vector. -/
theorem eJ_precise (st : GenState) (hInv : EmitInv st)
    (hf : (eJ st).is_memory_full = false) :
    eJ st = { st with
      code_arr := st.code_arr.set st.code_pointer (.jump st.jumps.length),
      code_pointer := st.code_pointer + 1,
      jumps := st.jumps ++ [0] } := by
  have hf0 : st.is_memory_full = false := (stepOK_eJ st).full_mono hf
  by_cases hl : on_last_byte st = true
  · rw [eJ, add_jump] at hf
    simp [hf0, hl] at hf
  · simp only [Bool.not_eq_true] at hl
    have hmod : (st.code_pointer + 1) % 256 = st.code_pointer + 1 := by
      have h1 := hInv.2.1
      have h2 := hInv.2.2.1
      omega
    rw [eJ_eq_of_open st hf0 hl, hmod]

theorem set_jump_is_memory_full (i v : Nat) (st : GenState) :
    (set_jump i v st).is_memory_full = st.is_memory_full := by
  unfold set_jump; split <;> rfl

theorem set_jump_code_pointer (i v : Nat) (st : GenState) :
    (set_jump i v st).code_pointer = st.code_pointer := by
  unfold set_jump; split <;> rfl

theorem set_jump_code_arr (i v : Nat) (st : GenState) :
    (set_jump i v st).code_arr = st.code_arr := by
  unfold set_jump; split <;> rfl

theorem set_jump_jumps_of_lt (i v : Nat) (st : GenState) (h : i < st.jumps.length) :
    (set_jump i v st).jumps = st.jumps.set i (v % 256) := by
  unfold set_jump
  simp [h]

end Nexus

namespace Nexus

/-! ### Auxiliary facts for the claims -/

theorem alookup_areplace_self {α β : Type} [DecidableEq α] (m : List (α × β))
    (k : α) (v : β) (h : (alookup m k).isSome = true) :
    alookup (areplace k v m) k = some v := by
  induction m with
  | nil => simp [alookup] at h
  | cons p rest ih =>
      rcases p with ⟨k', v'⟩
      simp only [alookup] at h
      by_cases hk : k' = k
      · simp [areplace, alookup, hk]
      · rw [if_neg hk] at h
        simp only [areplace, if_neg hk, alookup]
        exact ih h

theorem alookup_ainsert_self {α β : Type} [DecidableEq α] (m : List (α × β))
    (k : α) (v : β) : alookup (ainsert m k v) k = some v := by
  unfold ainsert
  split
  next h => exact alookup_areplace_self m k v h
  next h => simp [alookup]

theorem backpatch_go_length (fuel : Nat) : ∀ i vp tp st,
    (backpatch_go fuel i vp tp st).1.code_arr.length = st.code_arr.length := by
  induction fuel with
  | zero => intro i vp tp st; simp [backpatch_go]
  | succ f ih =>
      intro i vp tp st
      rcases hcell : cellAt st i with b | off | off | _ | b | jidx <;>
        simp only [backpatch_go, hcell]
      · exact ih _ _ _ _
      · split
        · rw [ih]; simp
        · rfl
      · split
        · rw [ih]; simp
        · rfl
      · exact ih _ _ _ _
      · exact ih _ _ _ _
      · rw [ih]; simp

theorem EmitInv_fresh (t : SymbolTable) : EmitInv (fresh_state t) := by
  refine ⟨?_, ?_, ?_, ?_, ?_⟩
  · show (List.replicate 256 CodeGenBytes.empty).length = 256
    exact List.length_replicate 256 _
  · show (0 : Nat) ≤ 0xFE
    omega
  · show (0xFE : Nat) ≤ 254
    omega
  · intro i _ _ _
    show (List.replicate 256 CodeGenBytes.empty).getD i .empty = .empty
    exact getD_replicate_self _ _ _
  · show (List.replicate 256 CodeGenBytes.empty).getD 255 .empty = .empty
    exact getD_replicate_self _ _ _

end Nexus

namespace Nexus

/-! ### Claim C8 -/

/-- C8: compiling the same AST with the same symbol table twice
produces byte-identical 256-byte images — indeed the whole result of
`generate_code` does not depend on the state left by any previous
compile, because every piece of emitter state (image cells, both
pointers, static table, temp counter, string cache, jump vector,
overflow flag, scope counter) is reset to `fresh_state` at the start
of each compile, and the image stays 256 bytes long. -/
theorem C8_generate_code_deterministic (prog : Stmt) (t : SymbolTable)
    (s1 s2 : GenState) :
    generate_code prog t s1 = generate_code prog t s2 ∧
    (generate_code prog t s1).1.code_arr.length = 256 := by
  constructor
  · rfl
  · show (backpatch_addresses (eC 0x00 (code_gen_block prog
      (fresh_state t)))).1.code_arr.length = 256
    rw [backpatch_addresses, backpatch_go_length]
    rw [(stepOK_eC 0x00 _).len_eq, (stepOK_code_gen_block prog _).len_eq]
    simp [fresh_state]

/-! ### Claim C4 -/

/-- The program `{ int a }$`: a single `int` declaration, with its
symbol-table entry `("a", scope 0, Int)`. -/
def c4_prog : Stmt := .varDecl "a"

/-- Symbol table of `{ int a }$`. -/
def c4_table : SymbolTable := { entries := [⟨"a", 0, .int⟩], scopeStack := [] }

/-- C4, counterexample: compiling `{ int a }$` yields an image
beginning `A9 00 8D 06 00 00`, not `A9 00 8D 05 00 00` as the claim
states — the backpatched address of variable slot 0 is `0x06`, not
`0x05`. -/
theorem C4_counterexample :
    (generate_code c4_prog c4_table initGenState).1.code_arr.take 6 =
      [.code 0xA9, .code 0x00, .code 0x8D, .code 0x06, .code 0x00, .code 0x00] ∧
    (generate_code c4_prog c4_table initGenState).1.code_arr.take 6 ≠
      [.code 0xA9, .code 0x00, .code 0x8D, .code 0x05, .code 0x00, .code 0x00] := by
  constructor
  · decide
  · decide

/-- C4, amended: compiling `{ int a }$` yields an image beginning
`A9 00 8D 06 00 00`; the backpatched address of variable slot 0 is
`0x06`, the slot lying immediately after the halt byte at index 5
(the code is 6 bytes, indices 0-5, so the first free address is 6). -/
theorem C4_amended :
    (generate_code c4_prog c4_table initGenState).1.code_arr.take 6 =
      [.code 0xA9, .code 0x00, .code 0x8D, .code 0x06, .code 0x00, .code 0x00] ∧
    cellAt (generate_code c4_prog c4_table initGenState).1 5 = .code 0x00 ∧
    (generate_code c4_prog c4_table initGenState).1.code_pointer = 6 ∧
    cellAt (generate_code c4_prog c4_table initGenState).1 3 = .code (5 + 1) := by
  refine ⟨by decide, by decide, by decide, by decide⟩

/-! ### Claim C5 -/

/-- C5: calling `store_string` a second time with the same string
returns the same heap address as the first (successful) call and
leaves the state — heap pointer, every heap cell, everything —
completely unchanged. -/
theorem C5_store_string_idempotent (s : String) (st : GenState) (a : Nat)
    (h : (store_string s st).2 = some a) :
    store_string s ((store_string s st).1) = ((store_string s st).1, some a) := by
  rcases halk : alookup st.string_history s with _ | addr
  · simp only [store_string, halk] at h ⊢
    rcases hsc : store_chars s.data.reverse (add_data 0x00 st).1 with ⟨st2, stored⟩
    rw [hsc] at h
    cases stored
    · simp at h
    · simp only at h ⊢
      have ha : (st2.heap_pointer + 1) % 256 = a := by
        simpa using h
      simp only [alookup_ainsert_self, ha]
  · simp only [store_string, halk] at h ⊢
    have ha : addr = a := by simpa using h
    simp only [store_string, halk, ha]

/-- C5, witness: interning `"hi"` in a fresh generator returns address
`0xFC`, and interning it again returns the same address with the
state unchanged. -/
theorem C5_witness :
    store_string "hi" ((store_string "hi" initGenState).1) =
      ((store_string "hi" initGenState).1, some 252) :=
  C5_store_string_idempotent "hi" initGenState 252 (by decide)

/-! ### Claim C6 -/

/-- A generator whose overflow flag is already set (reachable by
exhausting the 256 bytes) with an empty string cache. -/
def c6_full_state : GenState := { initGenState with is_memory_full := true }

/-- C6, counterexample: storing the (uncached) empty string when the
overflow flag is set makes the null-terminator write fail — an error
is recorded and no heap byte is written — yet `store_string` still
returns an address (`heap_pointer + 1 = 0xFF`) instead of `None`,
because the source ignores the result of the null-terminator write
(line 280). -/
theorem C6_counterexample :
    (store_string "" c6_full_state).2 = some 255 ∧
    (store_string "" c6_full_state).1.errors = 1 ∧
    (store_string "" c6_full_state).1.heap_pointer = 254 := by
  refine ⟨by decide, by decide, by decide⟩

/-- C6, amended: for a nonempty uncached string, a failed heap write
makes `store_string` return `None` (with the flag already set, the
null-terminator write and the first character write both fail);
but the result of the null-terminator write alone is ignored, so for
the empty string `store_string` returns the address
`heap_pointer + 1` even though its only write failed. -/
theorem C6_amended :
    (∀ (s : String) (st : GenState), alookup st.string_history s = none →
      st.is_memory_full = true → s ≠ "" → (store_string s st).2 = none) ∧
    (∀ st : GenState, alookup st.string_history "" = none →
      st.is_memory_full = true →
      (store_string "" st).2 = some ((st.heap_pointer + 1) % 256)) := by
  constructor
  · intro s st halk hfull hne
    rcases hrev : s.data.reverse with _ | ⟨c, cs⟩
    · exfalso
      apply hne
      have hd : s.data = [] := List.reverse_eq_nil_iff.mp hrev
      cases s with
      | mk l =>
          cases hd
          decide
    · simp only [store_string, halk, hrev]
      have h1 : (add_data 0x00 st).1 = { st with errors := st.errors + 1 } := by
        simp [add_data, hfull]
      rw [h1]
      have h2 : store_chars (c :: cs) { st with errors := st.errors + 1 } =
          ({ st with errors := st.errors + 1 + 1 }, false) := by
        simp [store_chars, add_data, hfull]
      rw [h2]
  · intro st halk hfull
    have hrev : ("" : String).data.reverse = [] := by decide
    simp only [store_string, halk, hrev]
    have h1 : (add_data 0x00 st).1 = { st with errors := st.errors + 1 } := by
      simp [add_data, hfull]
    rw [h1]
    simp [store_chars]

/-- C6, witness: in the full-memory generator, storing the nonempty
string `"x"` returns `None`, while storing the empty string returns
the address `0xFF`. -/
theorem C6_witness :
    (store_string "x" c6_full_state).2 = none ∧
    (store_string "" c6_full_state).2 = some 255 := by
  constructor
  · exact C6_amended.1 "x" c6_full_state (by decide) (by decide) (by decide)
  · exact C6_amended.2 c6_full_state (by decide) (by decide)

end Nexus

namespace Nexus

/-! ### Claim C3 -/

/-- C3: every byte-append primitive (`add_code`, `add_var`,
`add_temp`, `add_data`, `add_jump`) has the same overflow semantics:
with the flag already set it records an error and returns failure
without writing; on the last free byte (`code_pointer ==
heap_pointer`) it sets the flag but still performs this write; and
otherwise it writes at the appropriate pointer and moves it (the
code side increments `code_pointer`, the heap side decrements
`heap_pointer`). -/
theorem C3_append_primitive_overflow (st : GenState) (b : Nat) :
    (st.is_memory_full = true →
      add_code b st = ({ st with errors := st.errors + 1 }, false) ∧
      add_var b st = ({ st with errors := st.errors + 1 }, false) ∧
      add_temp b st = ({ st with errors := st.errors + 1 }, false) ∧
      add_data b st = ({ st with errors := st.errors + 1 }, false) ∧
      add_jump st = ({ st with errors := st.errors + 1 }, false)) ∧
    (st.is_memory_full = false → st.code_pointer = st.heap_pointer →
      add_code b st = ({ st with
          is_memory_full := true,
          code_arr := st.code_arr.set st.code_pointer (.code (b % 256)),
          code_pointer := (st.code_pointer + 1) % 256 }, true) ∧
      add_var b st = ({ st with
          is_memory_full := true,
          code_arr := st.code_arr.set st.code_pointer (.var b),
          code_pointer := (st.code_pointer + 1) % 256 }, true) ∧
      add_temp b st = ({ st with
          is_memory_full := true,
          code_arr := st.code_arr.set st.code_pointer (.temp b),
          code_pointer := (st.code_pointer + 1) % 256 }, true) ∧
      add_data b st = ({ st with
          is_memory_full := true,
          code_arr := st.code_arr.set st.heap_pointer (.data (b % 256)),
          heap_pointer := (st.heap_pointer + 255) % 256,
          dataWriteHps := st.heap_pointer :: st.dataWriteHps }, true) ∧
      add_jump st = ({ st with
          is_memory_full := true,
          code_arr := st.code_arr.set st.code_pointer (.jump st.jumps.length),
          code_pointer := (st.code_pointer + 1) % 256,
          jumps := st.jumps ++ [0] }, true)) ∧
    (st.is_memory_full = false → st.code_pointer ≠ st.heap_pointer →
      add_code b st = ({ st with
          code_arr := st.code_arr.set st.code_pointer (.code (b % 256)),
          code_pointer := (st.code_pointer + 1) % 256 }, true) ∧
      add_var b st = ({ st with
          code_arr := st.code_arr.set st.code_pointer (.var b),
          code_pointer := (st.code_pointer + 1) % 256 }, true) ∧
      add_temp b st = ({ st with
          code_arr := st.code_arr.set st.code_pointer (.temp b),
          code_pointer := (st.code_pointer + 1) % 256 }, true) ∧
      add_data b st = ({ st with
          code_arr := st.code_arr.set st.heap_pointer (.data (b % 256)),
          heap_pointer := (st.heap_pointer + 255) % 256,
          dataWriteHps := st.heap_pointer :: st.dataWriteHps }, true) ∧
      add_jump st = ({ st with
          code_arr := st.code_arr.set st.code_pointer (.jump st.jumps.length),
          code_pointer := (st.code_pointer + 1) % 256,
          jumps := st.jumps ++ [0] }, true)) := by
  refine ⟨?_, ?_, ?_⟩
  · intro hfull
    refine ⟨?_, ?_, ?_, ?_, ?_⟩ <;>
      simp [add_code, add_var, add_temp, add_data, add_jump, hfull]
  · intro hfull hcp
    have hb : on_last_byte st = true := by simp [on_last_byte, hcp]
    refine ⟨?_, ?_, ?_, ?_, ?_⟩ <;>
      simp [add_code, add_var, add_temp, add_data, add_jump, hfull, hb]
  · intro hfull hcp
    have hb : on_last_byte st = false := by simp [on_last_byte, hcp]
    refine ⟨?_, ?_, ?_, ?_, ?_⟩ <;>
      simp [add_code, add_var, add_temp, add_data, add_jump, hfull, hb]

/-- A generator whose overflow flag is set, exercising the failure
branch of each append primitive. -/
def c3_full_state : GenState := { initGenState with is_memory_full := true }

/-- A generator sitting on its last free byte
(`code_pointer = heap_pointer = 0`). -/
def c3_edge_state : GenState := { initGenState with heap_pointer := 0 }

/-- C3, witness: the three branches on concrete states — the full
state records an error and returns failure, the last-free-byte state
performs the write and trips the flag, and the fresh state writes and
advances. -/
theorem C3_witness :
    add_code 7 c3_full_state = ({ c3_full_state with
        errors := c3_full_state.errors + 1 }, false) ∧
    add_data 7 c3_edge_state = ({ c3_edge_state with
        is_memory_full := true,
        code_arr := c3_edge_state.code_arr.set c3_edge_state.heap_pointer (.data (7 % 256)),
        heap_pointer := (c3_edge_state.heap_pointer + 255) % 256,
        dataWriteHps := c3_edge_state.heap_pointer :: c3_edge_state.dataWriteHps }, true) ∧
    add_jump initGenState = ({ initGenState with
        code_arr := initGenState.code_arr.set initGenState.code_pointer
          (.jump initGenState.jumps.length),
        code_pointer := (initGenState.code_pointer + 1) % 256,
        jumps := initGenState.jumps ++ [0] }, true) :=
  ⟨((C3_append_primitive_overflow c3_full_state 7).1 rfl).1,
   ((C3_append_primitive_overflow c3_edge_state 7).2.1 rfl rfl).2.2.2.1,
   ((C3_append_primitive_overflow initGenState 7).2.2 rfl (by decide)).2.2.2.2⟩

/-! ### Claim C7 -/

/-- C7, counterexample: compiling the empty block `{}$` succeeds
(no errors, backpatch succeeds), yet cell `0xFF` of the final image
is `Empty`, not `Code(0x00)`, and so is the interior cell `0x64`
after backpatching — unused cells are `Empty` at every point;
`CodeGenerator::new` (lines 92-95) fills the image with
`CodeGenBytes::Empty` and the backpatcher never rewrites an `Empty`
cell. The rendering `"00"` comes from `display_code` printing
`Empty` as two zero digits, not from the cell holding `Code(0x00)`. -/
theorem C7_counterexample :
    cellAt (generate_code Stmt.skip { entries := [], scopeStack := [] }
      initGenState).1 255 = .empty ∧
    cellAt (generate_code Stmt.skip { entries := [], scopeStack := [] }
      initGenState).1 255 ≠ .code 0x00 ∧
    cellAt (generate_code Stmt.skip { entries := [], scopeStack := [] }
      initGenState).1 100 ≠ .code 0x00 ∧
    (generate_code Stmt.skip { entries := [], scopeStack := [] }
      initGenState).1.errors = 0 ∧
    (generate_code Stmt.skip { entries := [], scopeStack := [] }
      initGenState).1.backpatch_ok = true := by
  refine ⟨by decide, by decide, by decide, by decide, by decide⟩

/-- C7, amended: whenever a compile finishes without tripping the
overflow flag, every cell outside the code region
`[0, code_pointer)` and the heap region `(heap_pointer, 0xFE]` of the
final (backpatched) image is `Empty` — not `Code(0x00)` — including
cell `0xFF`, and `display_code` renders such a cell as the string
"00". -/
theorem C7_amended (prog : Stmt) (t : SymbolTable) (s : GenState)
    (h : (generate_code prog t s).1.is_memory_full = false) :
    (∀ i, (generate_code prog t s).1.code_pointer ≤ i →
      i ≤ (generate_code prog t s).1.heap_pointer →
      cellAt (generate_code prog t s).1 i = .empty) ∧
    cellAt (generate_code prog t s).1 255 = .empty ∧
    renderCell (cellAt (generate_code prog t s).1 255) = "00" := by
  have hbp := backpatch_go_preserves
    ((eC 0x00 (code_gen_block prog (fresh_state t))).code_arr.length) 0
    (eC 0x00 (code_gen_block prog (fresh_state t))).code_pointer
    (eC 0x00 (code_gen_block prog (fresh_state t))).heap_pointer
    (eC 0x00 (code_gen_block prog (fresh_state t)))
  have hres1 : (generate_code prog t s).1.is_memory_full =
      (eC 0x00 (code_gen_block prog (fresh_state t))).is_memory_full := hbp.2.2.1
  have hfull2 : (eC 0x00 (code_gen_block prog (fresh_state t))).is_memory_full
      = false := hres1 ▸ h
  have hstep : StepOK (fresh_state t)
      (eC 0x00 (code_gen_block prog (fresh_state t))) :=
    (stepOK_code_gen_block prog _).strans (stepOK_eC 0x00 _)
  obtain ⟨hinv2, -, -, -, -⟩ := hstep.good hfull2 (EmitInv_fresh t)
  have hcp : (generate_code prog t s).1.code_pointer =
      (eC 0x00 (code_gen_block prog (fresh_state t))).code_pointer := hbp.1
  have hhp : (generate_code prog t s).1.heap_pointer =
      (eC 0x00 (code_gen_block prog (fresh_state t))).heap_pointer := hbp.2.1
  have hcell : ∀ k, cellAt (eC 0x00 (code_gen_block prog (fresh_state t))) k
      = .empty → cellAt (generate_code prog t s).1 k = .empty := hbp.2.2.2.2
  refine ⟨?_, ?_, ?_⟩
  · intro i h1 h2
    rw [hcp] at h1
    rw [hhp] at h2
    have hi : i < 256 := by
      have := hinv2.2.2.1
      omega
    exact hcell i (hinv2.2.2.2.1 i hi h1 h2)
  · exact hcell 255 hinv2.2.2.2.2
  · rw [hcell 255 hinv2.2.2.2.2]
    rfl

/-- C7, witness: for the empty block `{}$` the flag is untripped, so
the amended invariant applies; in particular cell `0xFF` of that
compile's final image is `Empty`. -/
theorem C7_witness :
    cellAt (generate_code Stmt.skip { entries := [], scopeStack := [] }
      initGenState).1 255 = .empty :=
  (C7_amended Stmt.skip { entries := [], scopeStack := [] } initGenState
    (by decide)).2.1

end Nexus

namespace Nexus

/-! ### Claim C9 -/

/-- `n` consecutive `int a` declarations. -/
def c9_rep : Nat → Stmt
  | 0 => Stmt.skip
  | n+1 => Stmt.seq (c9_rep n) (Stmt.varDecl "a")

/-- 51 `int` declarations (255 bytes, exactly exhausting the
writable region) followed by `while (true) {}`. -/
def c9_prog : Stmt := Stmt.seq (c9_rep 51) (Stmt.while_ (Expr.boolLit true) Stmt.skip)

/-- Symbol table for `c9_prog`. -/
def c9_table : SymbolTable := { entries := [⟨"a", 0, .int⟩], scopeStack := [] }

/-- C9: refuted by this run.  The 51 declarations exhaust the 255
writable bytes, so within the `while` every `add_jump` fails and
pushes nothing; the jump vector is still empty when the unguarded
write `self.jumps[unconditional_jump_index] = ...` (line 1048)
executes with `unconditional_jump_index = 0`, indexing an empty
`Vec` — a panic in the Rust.  The model records the out-of-bounds
jump-vector write in the ghost flag `oobJumpWrite`. -/
theorem C9_oob_jump_write :
    (generate_code c9_prog c9_table initGenState).1.oobJumpWrite = true ∧
    (generate_code c9_prog c9_table initGenState).1.jumps = [] ∧
    (generate_code c9_prog c9_table initGenState).1.is_memory_full = true := by
  refine ⟨by decide, by decide, by decide⟩

/-! ### Claim C10 -/

/-- A single `print` of a 254-character string literal: interning it
writes the null terminator at heap cell 254 and the characters at
cells 253 down to 0. -/
def overflow_print_prog : Stmt :=
  Stmt.print (Expr.charLit (String.mk (List.replicate 254 'a')))

/-- C10: refuted by this run.  While interning the 254-character
string, `add_data` performs a write with `heap_pointer = 0`
beforehand (the ghost trace `dataWriteHps` records it): this is the
saturating write taken when `code_pointer == heap_pointer == 0`, and
the `u8` decrement `self.heap_pointer -= 1` (line 266) then
underflows — a panic in a debug build, and in release the wrap
leaves `heap_pointer = 255`, above the whole image. -/
theorem C10_heap_pointer_underflow :
    0 ∈ (generate_code overflow_print_prog { entries := [], scopeStack := [] }
      initGenState).1.dataWriteHps ∧
    (generate_code overflow_print_prog { entries := [], scopeStack := [] }
      initGenState).1.heap_pointer = 255 := by
  refine ⟨by decide, by decide⟩

/-! ### Claim C1 -/

/-- C1, counterexample: the 254-character `print` overflows the
memory mid-statement — six overflow diagnostics are recorded — yet
`generate_code` still returns the rendered image of that very
program: line 139 of the source calls `display_code`
unconditionally, ignoring the failure. -/
theorem C1_counterexample :
    0 < (generate_code overflow_print_prog { entries := [], scopeStack := [] }
      initGenState).1.errors ∧
    (generate_code overflow_print_prog { entries := [], scopeStack := [] }
      initGenState).2 =
      some (display_code (generate_code overflow_print_prog
        { entries := [], scopeStack := [] } initGenState).1) := by
  refine ⟨by decide, rfl⟩

/-- C1, amended: failures are surfaced as diagnostics, but the
(partial) image is never discarded — `generate_code` renders and
returns the 256-cell image on every input, failing or not, and only
the state reset before the next compile (see the determinism
theorem) isolates the next program from the failure. -/
theorem C1_amended (p : Stmt) (t : SymbolTable) (s : GenState) :
    (generate_code p t s).2 = some (display_code (generate_code p t s).1) ∧
    ((generate_code p t s).2).isSome = true :=
  ⟨rfl, rfl⟩

end Nexus

namespace Nexus

/-! ### Facts shared by the `if` and `while` branch machinery -/

theorem cellAt_set_jump (i v k : Nat) (st : GenState) :
    cellAt (set_jump i v st) k = cellAt st k := by
  unfold set_jump cellAt
  split <;> rfl

/-- The common prefix of `code_gen_if` and `code_gen_while` on a
non-literal condition: after the comparison, the `D0`, the jump
placeholder and the body, the pointers and the placeholder cells are
exactly where lines 928-946 and 1015-1034 put them. -/
theorem c2_prefix (body : Stmt) (st st1 : GenState)
    (h1 : StepJ st st1) (hInv : EmitInv st)
    (hBE : (code_gen_block body (eJ (eC 0xD0 st1))).is_memory_full = false) :
    (eC 0xD0 st1).code_pointer = st1.code_pointer + 1 ∧
    (eJ (eC 0xD0 st1)).code_pointer = st1.code_pointer + 2 ∧
    (eJ (eC 0xD0 st1)).jumps.length = st.jumps.length + 1 ∧
    EmitInv (code_gen_block body (eJ (eC 0xD0 st1))) ∧
    (eJ (eC 0xD0 st1)).code_pointer ≤
      (code_gen_block body (eJ (eC 0xD0 st1))).code_pointer ∧
    cellAt (code_gen_block body (eJ (eC 0xD0 st1))) st1.code_pointer = .code 0xD0 ∧
    cellAt (code_gen_block body (eJ (eC 0xD0 st1))) (st1.code_pointer + 1) =
      .jump st.jumps.length ∧
    st.jumps.length < (code_gen_block body (eJ (eC 0xD0 st1))).jumps.length ∧
    st.code_pointer ≤ st1.code_pointer := by
  have hst3full : (eJ (eC 0xD0 st1)).is_memory_full = false :=
    (stepOK_code_gen_block body (eJ (eC 0xD0 st1))).full_mono hBE
  have hst2full : (eC 0xD0 st1).is_memory_full = false :=
    (stepOK_eJ (eC 0xD0 st1)).full_mono hst3full
  have hst1full : st1.is_memory_full = false :=
    (stepOK_eC 0xD0 st1).full_mono hst2full
  obtain ⟨hInv1, hcp01, -, -, -⟩ := h1.1.good hst1full hInv
  have hst2eq := eC_precise 0xD0 st1 hInv1 hst2full
  obtain ⟨hInv2, -, -, -, -⟩ := (stepOK_eC 0xD0 st1).good hst2full hInv1
  have hst3eq := eJ_precise (eC 0xD0 st1) hInv2 hst3full
  obtain ⟨hInv3, -, -, -, -⟩ := (stepOK_eJ (eC 0xD0 st1)).good hst3full hInv2
  obtain ⟨hInvB, hcp3B, -, hcellsB, -⟩ :=
    (stepOK_code_gen_block body (eJ (eC 0xD0 st1))).good hBE hInv3
  have hcp2 : (eC 0xD0 st1).code_pointer = st1.code_pointer + 1 := by
    rw [hst2eq]
  have hcp3 : (eJ (eC 0xD0 st1)).code_pointer = st1.code_pointer + 2 := by
    rw [hst3eq]
    show (eC 0xD0 st1).code_pointer + 1 = st1.code_pointer + 2
    omega
  have hj1 : st1.jumps = st.jumps := h1.2
  have hj2 : (eC 0xD0 st1).jumps = st.jumps := (jumps_eC 0xD0 st1).trans hj1
  have hj3 : (eJ (eC 0xD0 st1)).jumps = st.jumps ++ [0] := by
    rw [hst3eq]
    show (eC 0xD0 st1).jumps ++ [0] = st.jumps ++ [0]
    rw [hj2]
  have hj3len : (eJ (eC 0xD0 st1)).jumps.length = st.jumps.length + 1 := by
    rw [hj3]
    simp
  have hlen1 : st1.code_arr.length = 256 := hInv1.1
  have hlen2 : (eC 0xD0 st1).code_arr.length = 256 := hInv2.1
  have hb1 : st1.code_pointer ≤ 254 := le_trans hInv1.2.1 hInv1.2.2.1
  have hc2p : cellAt (eC 0xD0 st1) st1.code_pointer = .code 0xD0 := by
    rw [hst2eq]
    show (st1.code_arr.set st1.code_pointer (.code (0xD0 % 256))).getD
      st1.code_pointer .empty = .code 0xD0
    rw [getD_set_self _ _ _ (by omega)]
  have hc3p : cellAt (eJ (eC 0xD0 st1)) st1.code_pointer = .code 0xD0 := by
    rw [hst3eq]
    show ((eC 0xD0 st1).code_arr.set (eC 0xD0 st1).code_pointer
      (.jump (eC 0xD0 st1).jumps.length)).getD st1.code_pointer .empty = .code 0xD0
    rw [getD_set_ne _ _ _ (by omega)]
    exact hc2p
  have hc3p1 : cellAt (eJ (eC 0xD0 st1)) (st1.code_pointer + 1) =
      .jump st.jumps.length := by
    rw [hst3eq]
    show ((eC 0xD0 st1).code_arr.set (eC 0xD0 st1).code_pointer
      (.jump (eC 0xD0 st1).jumps.length)).getD (st1.code_pointer + 1) .empty =
      .jump st.jumps.length
    rw [hj2, hcp2, getD_set_self _ _ _ (by omega)]
  have hjlenB : (eJ (eC 0xD0 st1)).jumps.length ≤
      (code_gen_block body (eJ (eC 0xD0 st1))).jumps.length :=
    (stepOK_code_gen_block body (eJ (eC 0xD0 st1))).jlen_mono
  refine ⟨hcp2, hcp3, hj3len, hInvB, hcp3B, ?_, ?_, by omega, hcp01⟩
  · exact (hcellsB st1.code_pointer (by omega)).trans hc3p
  · exact (hcellsB (st1.code_pointer + 1) (by omega)).trans hc3p1

end Nexus

namespace Nexus

/-- The seven-byte `while` tail `A2 01 EC FF 00 D0 Jump` (lines
1003-1021): it advances the code pointer by 7, pushes one jump entry,
writes the back-branch `D0` and its placeholder at offsets +5 and +6,
and touches no cell below the starting code pointer. -/
theorem tail7_precise (q : GenState) (hInvq : EmitInv q)
    (hfull : (eJ (eC 0xD0 (eC 0x00 (eC 0xFF (eC 0xEC (eC 0x01
      (eC 0xA2 q))))))).is_memory_full = false) :
    (eJ (eC 0xD0 (eC 0x00 (eC 0xFF (eC 0xEC (eC 0x01 (eC 0xA2 q))))))).code_pointer
      = q.code_pointer + 7 ∧
    (eJ (eC 0xD0 (eC 0x00 (eC 0xFF (eC 0xEC (eC 0x01 (eC 0xA2 q))))))).jumps
      = q.jumps ++ [0] ∧
    EmitInv (eJ (eC 0xD0 (eC 0x00 (eC 0xFF (eC 0xEC (eC 0x01 (eC 0xA2 q))))))) ∧
    cellAt (eJ (eC 0xD0 (eC 0x00 (eC 0xFF (eC 0xEC (eC 0x01 (eC 0xA2 q)))))))
      (q.code_pointer + 5) = .code 0xD0 ∧
    cellAt (eJ (eC 0xD0 (eC 0x00 (eC 0xFF (eC 0xEC (eC 0x01 (eC 0xA2 q)))))))
      (q.code_pointer + 6) = .jump q.jumps.length ∧
    (∀ i, i < q.code_pointer →
      cellAt (eJ (eC 0xD0 (eC 0x00 (eC 0xFF (eC 0xEC (eC 0x01 (eC 0xA2 q))))))) i
        = cellAt q i) := by
  have hf6 : (eC 0xD0 (eC 0x00 (eC 0xFF (eC 0xEC (eC 0x01
      (eC 0xA2 q)))))).is_memory_full = false :=
    (stepOK_eJ _).full_mono hfull
  have hf5 : (eC 0x00 (eC 0xFF (eC 0xEC (eC 0x01 (eC 0xA2 q))))).is_memory_full
      = false := (stepOK_eC 0xD0 _).full_mono hf6
  have hf4 : (eC 0xFF (eC 0xEC (eC 0x01 (eC 0xA2 q)))).is_memory_full = false :=
    (stepOK_eC 0x00 _).full_mono hf5
  have hf3 : (eC 0xEC (eC 0x01 (eC 0xA2 q))).is_memory_full = false :=
    (stepOK_eC 0xFF _).full_mono hf4
  have hf2 : (eC 0x01 (eC 0xA2 q)).is_memory_full = false :=
    (stepOK_eC 0xEC _).full_mono hf3
  have hf1 : (eC 0xA2 q).is_memory_full = false :=
    (stepOK_eC 0x01 _).full_mono hf2
  obtain ⟨hI1, -, -, -, -⟩ := (stepOK_eC 0xA2 q).good hf1 hInvq
  obtain ⟨hI2, -, -, -, -⟩ := (stepOK_eC 0x01 _).good hf2 hI1
  obtain ⟨hI3, -, -, -, -⟩ := (stepOK_eC 0xEC _).good hf3 hI2
  obtain ⟨hI4, -, -, -, -⟩ := (stepOK_eC 0xFF _).good hf4 hI3
  obtain ⟨hI5, -, -, -, -⟩ := (stepOK_eC 0x00 _).good hf5 hI4
  obtain ⟨hI6, -, -, -, -⟩ := (stepOK_eC 0xD0 _).good hf6 hI5
  obtain ⟨hI7, -, -, -, -⟩ := (stepOK_eJ _).good hfull hI6
  have hc1 : (eC 0xA2 q).code_pointer = q.code_pointer + 1 := by
    rw [eC_precise 0xA2 q hInvq hf1]
  have hc2 : (eC 0x01 (eC 0xA2 q)).code_pointer = q.code_pointer + 2 := by
    rw [eC_precise 0x01 _ hI1 hf2]
    show (eC 0xA2 q).code_pointer + 1 = q.code_pointer + 2
    omega
  have hc3 : (eC 0xEC (eC 0x01 (eC 0xA2 q))).code_pointer = q.code_pointer + 3 := by
    rw [eC_precise 0xEC _ hI2 hf3]
    show (eC 0x01 (eC 0xA2 q)).code_pointer + 1 = q.code_pointer + 3
    omega
  have hc4 : (eC 0xFF (eC 0xEC (eC 0x01 (eC 0xA2 q)))).code_pointer =
      q.code_pointer + 4 := by
    rw [eC_precise 0xFF _ hI3 hf4]
    show (eC 0xEC (eC 0x01 (eC 0xA2 q))).code_pointer + 1 = q.code_pointer + 4
    omega
  have hc5 : (eC 0x00 (eC 0xFF (eC 0xEC (eC 0x01 (eC 0xA2 q))))).code_pointer =
      q.code_pointer + 5 := by
    rw [eC_precise 0x00 _ hI4 hf5]
    show (eC 0xFF (eC 0xEC (eC 0x01 (eC 0xA2 q)))).code_pointer + 1 =
      q.code_pointer + 5
    omega
  have hc6 : (eC 0xD0 (eC 0x00 (eC 0xFF (eC 0xEC (eC 0x01
      (eC 0xA2 q)))))).code_pointer = q.code_pointer + 6 := by
    rw [eC_precise 0xD0 _ hI5 hf6]
    show (eC 0x00 (eC 0xFF (eC 0xEC (eC 0x01 (eC 0xA2 q))))).code_pointer + 1 =
      q.code_pointer + 6
    omega
  have hc7 : (eJ (eC 0xD0 (eC 0x00 (eC 0xFF (eC 0xEC (eC 0x01
      (eC 0xA2 q))))))).code_pointer = q.code_pointer + 7 := by
    rw [eJ_precise _ hI6 hfull]
    show (eC 0xD0 (eC 0x00 (eC 0xFF (eC 0xEC (eC 0x01
      (eC 0xA2 q)))))).code_pointer + 1 = q.code_pointer + 7
    omega
  have hjq : (eC 0xD0 (eC 0x00 (eC 0xFF (eC 0xEC (eC 0x01 (eC 0xA2 q)))))).jumps
      = q.jumps := by
    rw [jumps_eC, jumps_eC, jumps_eC, jumps_eC, jumps_eC, jumps_eC]
  have hjs7 : (eJ (eC 0xD0 (eC 0x00 (eC 0xFF (eC 0xEC (eC 0x01
      (eC 0xA2 q))))))).jumps = q.jumps ++ [0] := by
    rw [eJ_precise _ hI6 hfull]
    show (eC 0xD0 (eC 0x00 (eC 0xFF (eC 0xEC (eC 0x01 (eC 0xA2 q)))))).jumps ++ [0]
      = q.jumps ++ [0]
    rw [hjq]
  have hb6 : (eC 0xD0 (eC 0x00 (eC 0xFF (eC 0xEC (eC 0x01
      (eC 0xA2 q)))))).code_pointer ≤ 254 := le_trans hI6.2.1 hI6.2.2.1
  have hlen5 : (eC 0x00 (eC 0xFF (eC 0xEC (eC 0x01 (eC 0xA2 q))))).code_arr.length
      = 256 := hI5.1
  have hlen6 : (eC 0xD0 (eC 0x00 (eC 0xFF (eC 0xEC (eC 0x01
      (eC 0xA2 q)))))).code_arr.length = 256 := hI6.1
  have hcell5' : cellAt (eC 0xD0 (eC 0x00 (eC 0xFF (eC 0xEC (eC 0x01
      (eC 0xA2 q)))))) (q.code_pointer + 5) = .code 0xD0 := by
    rw [eC_precise 0xD0 _ hI5 hf6]
    show ((eC 0x00 (eC 0xFF (eC 0xEC (eC 0x01 (eC 0xA2 q))))).code_arr.set
      (eC 0x00 (eC 0xFF (eC 0xEC (eC 0x01 (eC 0xA2 q))))).code_pointer
      (.code (0xD0 % 256))).getD (q.code_pointer + 5) .empty = .code 0xD0
    rw [hc5, getD_set_self _ _ _ (by omega)]
  have hcell5 : cellAt (eJ (eC 0xD0 (eC 0x00 (eC 0xFF (eC 0xEC (eC 0x01
      (eC 0xA2 q))))))) (q.code_pointer + 5) = .code 0xD0 := by
    rw [eJ_precise _ hI6 hfull]
    show ((eC 0xD0 (eC 0x00 (eC 0xFF (eC 0xEC (eC 0x01 (eC 0xA2 q)))))).code_arr.set
      (eC 0xD0 (eC 0x00 (eC 0xFF (eC 0xEC (eC 0x01 (eC 0xA2 q)))))).code_pointer
      (.jump (eC 0xD0 (eC 0x00 (eC 0xFF (eC 0xEC (eC 0x01
        (eC 0xA2 q)))))).jumps.length)).getD (q.code_pointer + 5) .empty = .code 0xD0
    rw [getD_set_ne _ _ _ (by omega)]
    exact hcell5'
  have hcell6 : cellAt (eJ (eC 0xD0 (eC 0x00 (eC 0xFF (eC 0xEC (eC 0x01
      (eC 0xA2 q))))))) (q.code_pointer + 6) = .jump q.jumps.length := by
    rw [eJ_precise _ hI6 hfull]
    show ((eC 0xD0 (eC 0x00 (eC 0xFF (eC 0xEC (eC 0x01 (eC 0xA2 q)))))).code_arr.set
      (eC 0xD0 (eC 0x00 (eC 0xFF (eC 0xEC (eC 0x01 (eC 0xA2 q)))))).code_pointer
      (.jump (eC 0xD0 (eC 0x00 (eC 0xFF (eC 0xEC (eC 0x01
        (eC 0xA2 q)))))).jumps.length)).getD (q.code_pointer + 6) .empty =
      .jump q.jumps.length
    rw [hjq, hc6, getD_set_self _ _ _ (by omega)]
  have hstep : StepOK q (eJ (eC 0xD0 (eC 0x00 (eC 0xFF (eC 0xEC (eC 0x01
      (eC 0xA2 q))))))) :=
    ((((((stepOK_eC 0xA2 q).strans (stepOK_eC 0x01 _)).strans
      (stepOK_eC 0xEC _)).strans (stepOK_eC 0xFF _)).strans
      (stepOK_eC 0x00 _)).strans (stepOK_eC 0xD0 _)).strans (stepOK_eJ _)
  obtain ⟨-, -, -, hlow, -⟩ := hstep.good hfull hInvq
  exact ⟨hc7, hjs7, hI7, hcell5, hcell6, hlow⟩

end Nexus

namespace Nexus

theorem set_jump_jumps_length (i v : Nat) (st : GenState) :
    (set_jump i v st).jumps.length = st.jumps.length := by
  unfold set_jump
  split <;> simp

theorem getD_set_jump_ne (i v j : Nat) (st : GenState) (hne : i ≠ j) :
    (set_jump i v st).jumps.getD j 0 = st.jumps.getD j 0 := by
  unfold set_jump
  split
  · exact getD_set_ne _ _ _ hne
  · rfl

theorem getD_set_jump_self (i v : Nat) (st : GenState) (h : i < st.jumps.length) :
    (set_jump i v st).jumps.getD i 0 = v % 256 := by
  unfold set_jump
  rw [if_pos h]
  exact getD_set_self _ _ _ h

/-- `code_gen_if` on a non-literal condition (lines 928-971): the
start address is nonzero, the `D0` opcode and its placeholder sit at
the comparison end, the backpatched jump entry is the distance from
the post-placeholder point to the end of the body, and the branch
therefore lands exactly at the code pointer immediately after the
guarded block. -/
theorem if_core (body : Stmt) (st st1 : GenState)
    (h1 : StepJ st st1) (hInv : EmitInv st)
    (hBE : (code_gen_block body (eJ (eC 0xD0 st1))).is_memory_full = false) :
    (eJ (eC 0xD0 st1)).code_pointer ≠ 0 ∧
    cellAt (set_jump st.jumps.length
        (((code_gen_block body (eJ (eC 0xD0 st1))).code_pointer + 256 -
          (eJ (eC 0xD0 st1)).code_pointer) % 256)
        (code_gen_block body (eJ (eC 0xD0 st1)))) st1.code_pointer = .code 0xD0 ∧
    cellAt (set_jump st.jumps.length
        (((code_gen_block body (eJ (eC 0xD0 st1))).code_pointer + 256 -
          (eJ (eC 0xD0 st1)).code_pointer) % 256)
        (code_gen_block body (eJ (eC 0xD0 st1)))) (st1.code_pointer + 1) =
      .jump st.jumps.length ∧
    (set_jump st.jumps.length
        (((code_gen_block body (eJ (eC 0xD0 st1))).code_pointer + 256 -
          (eJ (eC 0xD0 st1)).code_pointer) % 256)
        (code_gen_block body (eJ (eC 0xD0 st1)))).jumps.getD st.jumps.length 0 =
      (code_gen_block body (eJ (eC 0xD0 st1))).code_pointer -
        (eJ (eC 0xD0 st1)).code_pointer ∧
    branchTarget (st1.code_pointer + 1)
      ((set_jump st.jumps.length
        (((code_gen_block body (eJ (eC 0xD0 st1))).code_pointer + 256 -
          (eJ (eC 0xD0 st1)).code_pointer) % 256)
        (code_gen_block body (eJ (eC 0xD0 st1)))).jumps.getD st.jumps.length 0) =
      (code_gen_block body (eJ (eC 0xD0 st1))).code_pointer := by
  obtain ⟨hcp2, hcp3, hj3len, hInvB, hcp3B, hcBp, hcBp1, hJlt, hcp01⟩ :=
    c2_prefix body st st1 h1 hInv hBE
  have hcpBle : (code_gen_block body (eJ (eC 0xD0 st1))).code_pointer ≤ 254 :=
    le_trans hInvB.2.1 hInvB.2.2.1
  have hgJ : (set_jump st.jumps.length
      (((code_gen_block body (eJ (eC 0xD0 st1))).code_pointer + 256 -
        (eJ (eC 0xD0 st1)).code_pointer) % 256)
      (code_gen_block body (eJ (eC 0xD0 st1)))).jumps.getD st.jumps.length 0 =
      (code_gen_block body (eJ (eC 0xD0 st1))).code_pointer -
        (eJ (eC 0xD0 st1)).code_pointer := by
    rw [getD_set_jump_self _ _ _ hJlt]
    omega
  refine ⟨by omega, ?_, ?_, hgJ, ?_⟩
  · rw [cellAt_set_jump]
    exact hcBp
  · rw [cellAt_set_jump]
    exact hcBp1
  · rw [hgJ]
    simp only [branchTarget]
    omega

/-- `code_gen_while` on a non-literal condition (lines 1015-1048):
after the body the seven-byte tail `A2 01 EC FF 00 D0 nn` runs, the
conditional exit branch is backpatched to land after that tail —
seven bytes past the guarded block — and the unconditional
back-branch is backpatched to land exactly at the loop start. -/
theorem while_core (body : Stmt) (st st1 : GenState)
    (h1 : StepJ st st1) (hInv : EmitInv st)
    (hW : (while_tail st.code_pointer st.jumps.length
        (eJ (eC 0xD0 st1)).code_pointer
        (code_gen_block body (eJ (eC 0xD0 st1)))).is_memory_full = false) :
    (while_tail st.code_pointer st.jumps.length (eJ (eC 0xD0 st1)).code_pointer
        (code_gen_block body (eJ (eC 0xD0 st1)))).code_pointer =
      (code_gen_block body (eJ (eC 0xD0 st1))).code_pointer + 7 ∧
    cellAt (while_tail st.code_pointer st.jumps.length
        (eJ (eC 0xD0 st1)).code_pointer
        (code_gen_block body (eJ (eC 0xD0 st1)))) st1.code_pointer = .code 0xD0 ∧
    cellAt (while_tail st.code_pointer st.jumps.length
        (eJ (eC 0xD0 st1)).code_pointer
        (code_gen_block body (eJ (eC 0xD0 st1)))) (st1.code_pointer + 1) =
      .jump st.jumps.length ∧
    branchTarget (st1.code_pointer + 1)
      ((while_tail st.code_pointer st.jumps.length
        (eJ (eC 0xD0 st1)).code_pointer
        (code_gen_block body (eJ (eC 0xD0 st1)))).jumps.getD st.jumps.length 0) =
      (while_tail st.code_pointer st.jumps.length (eJ (eC 0xD0 st1)).code_pointer
        (code_gen_block body (eJ (eC 0xD0 st1)))).code_pointer ∧
    cellAt (while_tail st.code_pointer st.jumps.length
        (eJ (eC 0xD0 st1)).code_pointer
        (code_gen_block body (eJ (eC 0xD0 st1))))
      ((code_gen_block body (eJ (eC 0xD0 st1))).code_pointer + 5) = .code 0xD0 ∧
    cellAt (while_tail st.code_pointer st.jumps.length
        (eJ (eC 0xD0 st1)).code_pointer
        (code_gen_block body (eJ (eC 0xD0 st1))))
      ((code_gen_block body (eJ (eC 0xD0 st1))).code_pointer + 6) =
      .jump (code_gen_block body (eJ (eC 0xD0 st1))).jumps.length ∧
    branchTarget ((code_gen_block body (eJ (eC 0xD0 st1))).code_pointer + 6)
      ((while_tail st.code_pointer st.jumps.length
        (eJ (eC 0xD0 st1)).code_pointer
        (code_gen_block body (eJ (eC 0xD0 st1)))).jumps.getD
        (code_gen_block body (eJ (eC 0xD0 st1))).jumps.length 0) =
      st.code_pointer := by
  have hs7full : (eJ (eC 0xD0 (eC 0x00 (eC 0xFF (eC 0xEC (eC 0x01
      (eC 0xA2 (code_gen_block body (eJ (eC 0xD0 st1)))))))))).is_memory_full
      = false := by
    simp only [while_tail] at hW
    rw [set_jump_is_memory_full] at hW
    split at hW
    · rw [set_jump_is_memory_full] at hW
      exact hW
    · exact hW
  have hstep7 : StepOK (code_gen_block body (eJ (eC 0xD0 st1)))
      (eJ (eC 0xD0 (eC 0x00 (eC 0xFF (eC 0xEC (eC 0x01
        (eC 0xA2 (code_gen_block body (eJ (eC 0xD0 st1)))))))))) :=
    ((((((stepOK_eC 0xA2 _).strans (stepOK_eC 0x01 _)).strans
      (stepOK_eC 0xEC _)).strans (stepOK_eC 0xFF _)).strans
      (stepOK_eC 0x00 _)).strans (stepOK_eC 0xD0 _)).strans (stepOK_eJ _)
  have hBEf : (code_gen_block body (eJ (eC 0xD0 st1))).is_memory_full = false :=
    hstep7.full_mono hs7full
  obtain ⟨hcp2, hcp3, hj3len, hInvB, hcp3B, hcBp, hcBp1, hJlt, hcp01⟩ :=
    c2_prefix body st st1 h1 hInv hBEf
  obtain ⟨hc7, hjs7, hI7, hcell5, hcell6, hlow⟩ :=
    tail7_precise (code_gen_block body (eJ (eC 0xD0 st1))) hInvB hs7full
  simp only [while_tail]
  set BE := code_gen_block body (eJ (eC 0xD0 st1)) with hBEdef
  set s7 := eJ (eC 0xD0 (eC 0x00 (eC 0xFF (eC 0xEC (eC 0x01 (eC 0xA2 BE))))))
    with hs7def
  have hble : s7.code_pointer ≤ 254 := le_trans hI7.2.1 hI7.2.2.1
  have hpos : (eJ (eC 0xD0 st1)).code_pointer ≠ 0 := by omega
  rw [if_pos hpos]
  simp only [set_jump_code_pointer, cellAt_set_jump]
  have hlen7 : s7.jumps.length = BE.jumps.length + 1 := by
    rw [hjs7]
    simp
  have hne : BE.jumps.length ≠ st.jumps.length := by omega
  have hJs7 : st.jumps.length < s7.jumps.length := by omega
  have hstcpBE : st1.code_pointer + 2 ≤ BE.code_pointer := by omega
  refine ⟨hc7, ?_, ?_, ?_, hcell5, hcell6, ?_⟩
  · exact (hlow st1.code_pointer (by omega)).trans hcBp
  · exact (hlow (st1.code_pointer + 1) (by omega)).trans hcBp1
  · rw [getD_set_jump_ne _ _ _ _ hne, getD_set_jump_self _ _ _ hJs7]
    simp only [branchTarget]
    omega
  · have hUJ : BE.jumps.length < (set_jump st.jumps.length
        ((s7.code_pointer + 256 - (eJ (eC 0xD0 st1)).code_pointer) % 256)
        s7).jumps.length := by
      rw [set_jump_jumps_length]
      omega
    rw [getD_set_jump_self _ _ _ hUJ]
    simp only [branchTarget, set_jump_code_pointer]
    omega

end Nexus

namespace Nexus

/-! ### Claim C2 -/

/-- C2, amended: for an `if` or `while` whose condition is a
comparison, the `D0` emitted after the comparison carries a jump
placeholder whose backpatched offset makes it land at the code
pointer immediately after the guarded block **only for `if`**; for
`while`, that conditional exit branch lands seven bytes past the
guarded block — just past the back-branch tail `A2 01 EC FF 00 D0
nn` that `code_gen_while` emits after the body — and the
unconditional back-branch `D0` at body end + 5 lands exactly at the
loop start saved before the comparison. -/
theorem C2_branch_targets (cond l r : Expr) (body : Stmt) (st : GenState)
    (hc : cond = Expr.isEq l r ∨ cond = Expr.notEq l r)
    (hInv : EmitInv st)
    (hIf : (code_gen_stmt (Stmt.if_ cond body) st).is_memory_full = false)
    (hW : (code_gen_stmt (Stmt.while_ cond body) st).is_memory_full = false) :
    (cellAt (code_gen_stmt (Stmt.if_ cond body) st)
        (cond_compare cond st).code_pointer = .code 0xD0 ∧
      cellAt (code_gen_stmt (Stmt.if_ cond body) st)
        ((cond_compare cond st).code_pointer + 1) = .jump st.jumps.length ∧
      (code_gen_stmt (Stmt.if_ cond body) st).jumps.getD st.jumps.length 0 =
        (code_gen_block body (eJ (eC 0xD0 (cond_compare cond st)))).code_pointer -
          (eJ (eC 0xD0 (cond_compare cond st))).code_pointer ∧
      branchTarget ((cond_compare cond st).code_pointer + 1)
        ((code_gen_stmt (Stmt.if_ cond body) st).jumps.getD st.jumps.length 0) =
        (code_gen_block body (eJ (eC 0xD0 (cond_compare cond st)))).code_pointer) ∧
    ((code_gen_stmt (Stmt.while_ cond body) st).code_pointer =
        (code_gen_block body (eJ (eC 0xD0 (cond_compare cond st)))).code_pointer + 7 ∧
      cellAt (code_gen_stmt (Stmt.while_ cond body) st)
        (cond_compare cond st).code_pointer = .code 0xD0 ∧
      cellAt (code_gen_stmt (Stmt.while_ cond body) st)
        ((cond_compare cond st).code_pointer + 1) = .jump st.jumps.length ∧
      branchTarget ((cond_compare cond st).code_pointer + 1)
        ((code_gen_stmt (Stmt.while_ cond body) st).jumps.getD st.jumps.length 0) =
        (code_gen_stmt (Stmt.while_ cond body) st).code_pointer ∧
      cellAt (code_gen_stmt (Stmt.while_ cond body) st)
        ((code_gen_block body (eJ (eC 0xD0 (cond_compare cond st)))).code_pointer + 5) =
        .code 0xD0 ∧
      cellAt (code_gen_stmt (Stmt.while_ cond body) st)
        ((code_gen_block body (eJ (eC 0xD0 (cond_compare cond st)))).code_pointer + 6) =
        .jump (code_gen_block body (eJ (eC 0xD0 (cond_compare cond st)))).jumps.length ∧
      branchTarget
        ((code_gen_block body (eJ (eC 0xD0 (cond_compare cond st)))).code_pointer + 6)
        ((code_gen_stmt (Stmt.while_ cond body) st).jumps.getD
          (code_gen_block body (eJ (eC 0xD0 (cond_compare cond st)))).jumps.length 0) =
        st.code_pointer) := by
  rcases hc with rfl | rfl
  · refine ⟨?_, ?_⟩
    · simp only [code_gen_stmt] at hIf ⊢
      have hBE : (code_gen_block body (eJ (eC 0xD0
          (cond_compare (Expr.isEq l r) st)))).is_memory_full = false := by
        split at hIf
        · rw [set_jump_is_memory_full] at hIf
          exact hIf
        · exact hIf
      obtain ⟨hpos, h2, h3, h4, h5⟩ :=
        if_core body st (cond_compare (Expr.isEq l r) st)
          (stepJ_cond_compare _ st) hInv hBE
      rw [if_pos hpos]
      exact ⟨h2, h3, h4, h5⟩
    · simp only [code_gen_stmt] at hW ⊢
      exact while_core body st (cond_compare (Expr.isEq l r) st)
        (stepJ_cond_compare _ st) hInv hW
  · refine ⟨?_, ?_⟩
    · simp only [code_gen_stmt] at hIf ⊢
      have hBE : (code_gen_block body (eJ (eC 0xD0
          (cond_compare (Expr.notEq l r) st)))).is_memory_full = false := by
        split at hIf
        · rw [set_jump_is_memory_full] at hIf
          exact hIf
        · exact hIf
      obtain ⟨hpos, h2, h3, h4, h5⟩ :=
        if_core body st (cond_compare (Expr.notEq l r) st)
          (stepJ_cond_compare _ st) hInv hBE
      rw [if_pos hpos]
      exact ⟨h2, h3, h4, h5⟩
    · simp only [code_gen_stmt] at hW ⊢
      exact while_core body st (cond_compare (Expr.notEq l r) st)
        (stepJ_cond_compare _ st) hInv hW

end Nexus

namespace Nexus

/-- The condition `1 != 2`. -/
def c2_cond : Expr := Expr.notEq (Expr.digit 1) (Expr.digit 2)

/-- The program `{ while (1 != 2) {} }$`. -/
def c2_prog : Stmt := Stmt.while_ c2_cond Stmt.skip

/-- Whether an image cell is a branch-offset placeholder. -/
def isJumpCell : CodeGenBytes → Bool
  | .jump _ => true
  | _ => false

/-- C2, counterexample: compiling `{ while (1 != 2) {} }$` emits
exactly two `D0` branches, with placeholders at cells 20 and 27.
The guarded block ends at code pointer 21, but the backpatched
conditional exit branch (`D0` at 19, operand `07` at 20) targets
`20 + 1 + 7 = 28` — seven bytes past the guarded block, not the
point immediately after it.  (The back-branch `D0` at 26 with
operand `E4` does land at the loop start 0, and no other branch
exists, so no `D0` of this `while` targets the point immediately
after the guarded block.) -/
theorem C2_counterexample :
    (∀ i, i < 256 →
      isJumpCell (cellAt (eC 0x00 (code_gen_block c2_prog
        (fresh_state { entries := [], scopeStack := [] }))) i) = true →
      (i = 20 ∨ i = 27)) ∧
    (code_gen_block Stmt.skip (eJ (eC 0xD0 (cond_compare c2_cond
      (enter_scope (fresh_state { entries := [], scopeStack := [] })))))).code_pointer
      = 21 ∧
    cellAt (generate_code c2_prog { entries := [], scopeStack := [] }
      initGenState).1 19 = .code 0xD0 ∧
    cellAt (generate_code c2_prog { entries := [], scopeStack := [] }
      initGenState).1 20 = .code 0x07 ∧
    branchTarget 20 0x07 = 28 ∧
    cellAt (generate_code c2_prog { entries := [], scopeStack := [] }
      initGenState).1 26 = .code 0xD0 ∧
    cellAt (generate_code c2_prog { entries := [], scopeStack := [] }
      initGenState).1 27 = .code 0xE4 ∧
    branchTarget 27 0xE4 = 0 ∧
    (enter_scope (fresh_state
      { entries := [], scopeStack := [] })).code_pointer = 0 := by
  refine ⟨by decide, by decide, by decide, by decide, by decide, by decide,
    by decide, by decide, by decide⟩

/-- C2, witness: for `if (1 != 2) {}` in a fresh generator the
conditional branch lands at the code pointer immediately after the
(empty) guarded block, and for `while (1 != 2) {}` the back-branch
lands at the loop start (code pointer 0). -/
theorem C2_witness :
    branchTarget ((cond_compare c2_cond initGenState).code_pointer + 1)
      ((code_gen_stmt (Stmt.if_ c2_cond Stmt.skip) initGenState).jumps.getD
        initGenState.jumps.length 0) =
      (code_gen_block Stmt.skip
        (eJ (eC 0xD0 (cond_compare c2_cond initGenState)))).code_pointer ∧
    branchTarget
      ((code_gen_block Stmt.skip
        (eJ (eC 0xD0 (cond_compare c2_cond initGenState)))).code_pointer + 6)
      ((code_gen_stmt (Stmt.while_ c2_cond Stmt.skip) initGenState).jumps.getD
        (code_gen_block Stmt.skip
          (eJ (eC 0xD0 (cond_compare c2_cond initGenState)))).jumps.length 0) =
      initGenState.code_pointer :=
  ⟨(C2_branch_targets c2_cond (Expr.digit 1) (Expr.digit 2) Stmt.skip initGenState
      (Or.inr rfl) (by decide) (by decide) (by decide)).1.2.2.2,
   (C2_branch_targets c2_cond (Expr.digit 1) (Expr.digit 2) Stmt.skip initGenState
      (Or.inr rfl) (by decide) (by decide) (by decide)).2.2.2.2.2.2.2⟩

end Nexus
